import Mathlib

/-!
Verification development for the mcp-0ne federation engine.

This file shallowly embeds the core of the repository — the backend
registry (`src/mcp_0ne/registry.py`), the two backend transports
(`src/mcp_0ne/backends/http_backend.py`, `stdio_backend.py`) and the
config store (`src/mcp_0ne/config.py`) — as executable Lean definitions,
and proves or refutes the frozen claims about them.

Modelling conventions:
* Python dicts that behave as ordered maps become association lists with
  the dict operations (lookup, replace-or-append assignment, delete)
  implemented to match CPython semantics.
* Async upstream I/O (HTTP requests, stdio sessions) is replaced by
  outcome oracles passed to each operation; each operation additionally
  returns a trace of the externally visible actions it performed
  (handshakes, subprocess spawns, upstream queries, disconnects,
  forwarded calls), so that claims about "no contact with the upstream"
  are statable.
* A raised Python exception becomes an `Except`/`Option String` value
  threaded together with the mutated state, since a raising method still
  keeps the field mutations it performed before raising.
* Monotonic time is a `Nat` parameter supplied per operation.
-/

namespace Mcp0ne

/-- Lifecycle state of a backend connection (`backends/base.py`, `BackendState`). -/
inductive BackendState where
  | disconnected
  | connecting
  | connected
  | error
deriving DecidableEq, Repr

/-- A tool as advertised by an upstream server (the raw entry of a
`tools/list` result; `name` defaults to the empty string when the
upstream omits it, as in `http_backend.py` line 99). -/
structure RawTool where
  name : String
  description : String := ""
deriving DecidableEq, Repr

/-- Metadata for a single namespaced tool (`backends/base.py`, `BackendToolInfo`).
The JSON input schema is opaque to every claim and is omitted. -/
structure BackendToolInfo where
  original_name : String
  namespaced_name : String
  description : String
  backend_id : String
deriving DecidableEq, Repr

/-- The persisted per-backend configuration (one value of the `backends`
object of `backends.json`).  Optional fields are `Option` so that an
absent key (which raises `KeyError` on subscript access) is
distinguishable from a present empty value. -/
structure BackendConfig where
  btype : String
  pfx : Option String := none
  enabled : Bool := true
  url : Option String := none
  command : Option String := none
  tool_cache_ttl : Nat := 60
deriving DecidableEq, Repr

/-- Gateway settings (`config.py`, `DEFAULT_SETTINGS`). -/
structure Settings where
  separator : String := "__"
  lazy_connect : Bool := true
  tool_cache_ttl : Nat := 60
  log_level : String := "info"
deriving DecidableEq, Repr

/-- One content block of an MCP result (a dict with a `type` and a
`text` payload in the source). -/
structure ContentBlock where
  ctype : String
  text : String
deriving DecidableEq, Repr

/-- An MCP tool result: a content array and the `isError` flag. -/
structure McpResult where
  content : List ContentBlock := []
  isError : Bool := false
deriving DecidableEq, Repr

/-- A single text-block error result, the shape both transports and the
registry use for in-band failures. -/
def errText (msg : String) : McpResult :=
  { content := [⟨"text", msg⟩], isError := true }

/-- Externally visible actions of an operation, recorded as a trace. -/
inductive Action where
  | handshake (id : String)
  | spawn (id : String)
  | upstreamQuery (id : String)
  | disconnectCall (id : String)
  | forward (id : String) (name : String)
deriving DecidableEq, Repr

/-- Outcome oracle for a connection handshake. -/
inductive ConnectOutcome where
  | ok
  | fail (msg : String)
deriving DecidableEq, Repr

/-- Outcome oracle for an upstream `tools/list` query. -/
inductive ListOutcome where
  | ok (tools : List RawTool)
  | fail (msg : String)
deriving DecidableEq, Repr

/-- Outcome oracle for a forwarded `tools/call`:
`ok r` — the upstream returned a result (already in dict form);
`rpcError m` — the upstream returned a JSON-RPC error payload;
`connectError` — the HTTP connection could not be established;
`exn m` — any other exception was raised by the transport. -/
inductive CallOutcome where
  | ok (r : McpResult)
  | rpcError (msg : String)
  | connectError
  | exn (msg : String)
deriving DecidableEq, Repr

/-- A Python exception escaping a registry operation. -/
inductive RegError where
  | valueError (msg : String)
  | keyError (key : String)
deriving DecidableEq, Repr

/-! ## Association lists with CPython dict semantics -/

/-- Dict lookup: first binding of the key. -/
def alookup {α : Type} (l : List (String × α)) (k : String) : Option α :=
  match l with
  | [] => none
  | (k', v) :: rest => if k' = k then some v else alookup rest k

/-- Dict assignment `d[k] = v`: replace in place if present, else append
(CPython preserves insertion order and updates in place). -/
def ainsert {α : Type} (l : List (String × α)) (k : String) (v : α) :
    List (String × α) :=
  match l with
  | [] => [(k, v)]
  | (k', v') :: rest =>
      if k' = k then (k, v) :: rest else (k', v') :: ainsert rest k v

/-- Dict deletion `del d[k]`: remove the first binding. -/
def aerase {α : Type} (l : List (String × α)) (k : String) : List (String × α) :=
  match l with
  | [] => []
  | (k', v') :: rest => if k' = k then rest else (k', v') :: aerase rest k

/-- The keys of an association list. -/
def akeys {α : Type} (l : List (String × α)) : List String := l.map Prod.fst

/-- Distinctness of keys, the invariant of every Python dict. -/
def NodupK {α : Type} (l : List (String × α)) : Prop := (akeys l).Nodup

instance {α : Type} (l : List (String × α)) : Decidable (NodupK l) := by
  unfold NodupK
  infer_instance

/-! ## Backend connections (`backends/base.py`, `http_backend.py`, `stdio_backend.py`) -/

/-- Runtime state of one backend connection (`BackendConnection` plus the
transport-specific attributes of `HttpBackend` and `StdioBackend`).
`sessionOpen` models the stdio exit stack / `ClientSession` being present;
`initialized` models `HttpBackend._initialized`.  The field `pfx` is the
source's `prefix` attribute (renamed: `prefix` is reserved in Lean). -/
structure Backend where
  id : String
  config : BackendConfig
  pfx : String
  separator : String
  state : BackendState := .disconnected
  error_message : Option String := none
  tools : List BackendToolInfo := []
  tools_cache_time : Nat := 0
  ttl : Nat := 60
  sessionOpen : Bool := false
  initialized : Bool := false
deriving DecidableEq, Repr

/-- `config.get("enabled", True)` (`backends/base.py` line 89). -/
def Backend.enabled (b : Backend) : Bool := b.config.enabled

/-- `config["url"]` with a default for totality; only read on http backends,
whose construction required the key. -/
def Backend.urlOf (b : Backend) : String := b.config.url.getD ""

/-- The namespaced tool name (`backends/base.py`, `_namespace`). -/
def Backend.namespaceName (b : Backend) (toolName : String) : String :=
  b.pfx ++ b.separator ++ toolName

/-- Build a `BackendToolInfo` from a raw upstream tool, as both
`list_tools` implementations do. -/
def mkToolInfo (b : Backend) (r : RawTool) : BackendToolInfo :=
  { original_name := r.name
    namespaced_name := b.namespaceName r.name
    description := r.description
    backend_id := b.id }

/-- `connect()` of either transport.  Both set `state = CONNECTING` and
clear `error_message`, then run the transport handshake unconditionally —
neither implementation checks whether the backend is already connected.
The stdio variant installs a fresh exit stack and session before the
handshake (a previous one, if any, is simply overwritten) and tears the
new one down on failure (`_cleanup`); the http variant sets
`_initialized` on success.  Returns the mutated backend, the raised
exception message (if any), and the action trace. -/
def backendConnect (b : Backend) (o : ConnectOutcome) :
    Backend × Option String × List Action :=
  let b1 := { b with state := .connecting, error_message := none }
  if b.config.btype = "stdio" then
    let b2 := { b1 with sessionOpen := true }
    match o with
    | .ok => ({ b2 with state := .connected }, none, [.spawn b.id, .handshake b.id])
    | .fail m =>
        ({ b2 with state := .error, error_message := some m, sessionOpen := false },
         some m, [.spawn b.id, .handshake b.id])
  else
    match o with
    | .ok => ({ b1 with state := .connected, initialized := true }, none, [.handshake b.id])
    | .fail m =>
        ({ b1 with state := .error, error_message := some m }, some m, [.handshake b.id])

/-- `disconnect()` of either transport: release resources, set
`DISCONNECTED`, clear the tool cache.  (`_initialized := false` is the
http variant's effect and `sessionOpen := false` the stdio variant's;
each field is constantly `false` on the other transport, so clearing
both unconditionally is faithful.) -/
def backendDisconnect (b : Backend) : Backend × List Action :=
  ({ b with state := .disconnected, tools := [], tools_cache_time := 0,
            sessionOpen := false, initialized := false },
   [.disconnectCall b.id])

/-- `list_tools()` of either transport.  The stdio variant first raises
`RuntimeError` when no session is present.  Both then return the cached
list when it is nonempty and fresh (`if self._tools and (now - ts) < ttl`),
and otherwise query the upstream: on success the cache and its timestamp
are replaced; on failure the backend enters `ERROR` and the exception
propagates, the old cache left intact. -/
def backendListTools (b : Backend) (now : Nat) (o : ListOutcome) :
    Backend × Except String (List BackendToolInfo) × List Action :=
  if b.config.btype = "stdio" ∧ b.sessionOpen = false then
    (b, .error ("Backend '" ++ b.id ++ "' not connected"), [])
  else if b.tools ≠ [] ∧ now - b.tools_cache_time < b.ttl then
    (b, .ok b.tools, [])
  else
    match o with
    | .ok raws =>
        let ts := raws.map (mkToolInfo b)
        ({ b with tools := ts, tools_cache_time := now }, .ok ts, [.upstreamQuery b.id])
    | .fail m =>
        ({ b with state := .error, error_message := some m }, .error m, [.upstreamQuery b.id])

/-- `call_tool()` of either transport.  Never raises.  The stdio variant
returns a "not connected" error result when no session is present.  The
http variant translates a JSON-RPC error payload and transport failures
into in-band error results; `httpx.ConnectError` additionally moves the
backend to `ERROR` (`http_backend.py` lines 144-150) — the only
`call_tool` path that changes backend state. -/
def backendCallTool (b : Backend) (origName : String) (o : CallOutcome) :
    Backend × McpResult × List Action :=
  if b.config.btype = "stdio" ∧ b.sessionOpen = false then
    (b, errText ("Backend '" ++ b.id ++ "' not connected"), [])
  else
    match o with
    | .ok r => (b, r, [.forward b.id origName])
    | .rpcError m => (b, errText m, [.forward b.id origName])
    | .connectError =>
        if b.config.btype = "http" then
          ({ b with state := .error,
                    error_message := some ("Cannot connect to " ++ b.urlOf) },
           errText ("Backend '" ++ b.id ++ "' unreachable at " ++ b.urlOf),
           [.forward b.id origName])
        else
          (b, errText ("Backend '" ++ b.id ++ "' error: connection closed"),
           [.forward b.id origName])
    | .exn m => (b, errText ("Backend '" ++ b.id ++ "' error: " ++ m),
                 [.forward b.id origName])

/-! ## The registry (`registry.py`, `BackendRegistry`) -/

/-- The in-memory copy of the config document (`BackendRegistry._config`)
and equally the shape of the persisted `backends.json`.  `settings = none`
models an absent `settings` key (the initial `_config = {}`). -/
structure RegDoc where
  backendsCfg : List (String × BackendConfig) := []
  settings : Option Settings := none
deriving DecidableEq, Repr

/-- The registry state: the backend table `_backends`, the merged tool map
`_tool_map` (each entry `namespaced_name -> (backend id, original_name)`;
the source stores the backend object itself, aliased with the table
entry, which the id faithfully stands for since every map entry's backend
is registered under its id), the in-memory `_config`, and the durable
config file (`none` = absent). -/
structure RegState where
  backends : List (String × Backend) := []
  toolMap : List (String × String × String) := []
  memConfig : RegDoc := {}
  file : Option RegDoc := none
deriving DecidableEq, Repr

/-- A fresh registry (`BackendRegistry.__init__`) over a given on-disk file. -/
def initState (f : Option RegDoc) : RegState := { file := f }

/-- `self.separator` — `_config.get("settings", ...).get("separator", "__")`. -/
def sepOf (s : RegState) : String :=
  (s.memConfig.settings.map Settings.separator).getD "__"

/-- `self.lazy_connect` — `_config.get("settings", ...).get("lazy_connect", True)`. -/
def lazyOf (s : RegState) : Bool :=
  (s.memConfig.settings.map Settings.lazy_connect).getD true

/-- `str(e)` for a raised registry exception (`str(KeyError("k"))` is the
key in quotes). -/
def excMessage : RegError → String
  | .valueError m => m
  | .keyError k => "'" ++ k ++ "'"

/-- `_create_backend` plus the constructors' required-key subscripts:
an unknown type raises `ValueError`; `HttpBackend.__init__` reads
`config["prefix"]` and `config["url"]`, `StdioBackend.__init__` reads
`config["prefix"]` and `config["command"]` — a missing key raises
`KeyError`.  A new backend starts `DISCONNECTED` with an empty tool
cache and `tool_cache_ttl` from its config. -/
def createBackend (sep : String) (backend_id : String) (cfg : BackendConfig) :
    Except RegError Backend :=
  if cfg.btype = "http" then
    match cfg.pfx, cfg.url with
    | some p, some _ =>
        .ok { id := backend_id, config := cfg, pfx := p, separator := sep,
              ttl := cfg.tool_cache_ttl }
    | none, _ => .error (.keyError "prefix")
    | _, none => .error (.keyError "url")
  else if cfg.btype = "stdio" then
    match cfg.pfx, cfg.command with
    | some p, some _ =>
        .ok { id := backend_id, config := cfg, pfx := p, separator := sep,
              ttl := cfg.tool_cache_ttl }
    | none, _ => .error (.keyError "prefix")
    | _, none => .error (.keyError "command")
  else .error (.valueError ("Unknown backend type: " ++ cfg.btype))

/-- `_index_tools`: drop every map entry whose backend is this one, then
assign an entry per tool of the fresh list. -/
def indexTools (tm : List (String × String × String)) (backend_id : String)
    (tools : List BackendToolInfo) : List (String × String × String) :=
  let tm' := tm.filter (fun e => e.2.1 ≠ backend_id)
  tools.foldl (fun m t => ainsert m t.namespaced_name (backend_id, t.original_name)) tm'

/-- `_unindex_backend`. -/
def unindexBackend (tm : List (String × String × String)) (backend_id : String) :
    List (String × String × String) :=
  tm.filter (fun e => e.2.1 ≠ backend_id)

/-- `_persist`: write the registered backends' configs into `_config`
and save the whole document to disk. -/
def persist (s : RegState) : RegState :=
  let mc := { s.memConfig with backendsCfg := s.backends.map (fun p => (p.1, p.2.config)) }
  { s with memConfig := mc, file := some mc }

/-- `config.load_config()` restricted to the registry's view: an absent
file yields empty backends and the default settings; a present file has
any missing settings filled from the defaults (partial settings are not
representable here, so a present-but-empty `settings` is the default). -/
def loadConfigReg (f : Option RegDoc) : RegDoc :=
  match f with
  | none => { backendsCfg := [], settings := some {} }
  | some d => { backendsCfg := d.backendsCfg, settings := some (d.settings.getD {}) }

/-- A registry operation's result: the raised exception or the returned
report (a per-backend status table, an `add_backend` result dict, a
simple acknowledgement, or a routed tool result). -/
inductive Report where
  | table (entries : List (String × String))
  | add (id : String) (stateStr : String) (toolCount : Option Nat) (error : Option String)
  | removed (id : String)
  | enabledR (id : String) (toolCount : Option Nat) (error : Option String)
  | disabledR (id : String)
  | call (r : McpResult)
deriving DecidableEq, Repr

/-- Shorthand for one operation's outcome. -/
def StepOut := RegState × Except RegError Report × List Action

/-- The body of `load_from_config`'s loop for one backend definition:
a disabled one is only reported; an enabled one is constructed and
registered, and — when `lazy_connect` is false — immediately connected,
enumerated and indexed.  Every exception is caught into the report. -/
def loadOne (oracle : String → ConnectOutcome × ListOutcome) (now : Nat)
    (acc : RegState × List (String × String) × List Action)
    (p : String × BackendConfig) : RegState × List (String × String) × List Action :=
  if p.2.enabled = false then
    (acc.1, acc.2.1 ++ [(p.1, "disabled")], acc.2.2)
  else
    match createBackend (sepOf acc.1) p.1 p.2 with
    | .error e => (acc.1, acc.2.1 ++ [(p.1, "error: " ++ excMessage e)], acc.2.2)
    | .ok b =>
      let st1 := { acc.1 with backends := ainsert acc.1.backends p.1 b }
      if lazyOf st1 = false then
        match backendConnect b (oracle p.1).1 with
        | (b', some m, tA) =>
            ({ st1 with backends := ainsert st1.backends p.1 b' },
             acc.2.1 ++ [(p.1, "error: " ++ m)], acc.2.2 ++ tA)
        | (b', none, tA) =>
          match backendListTools b' now (oracle p.1).2 with
          | (b2, .error m, tB) =>
              ({ st1 with backends := ainsert st1.backends p.1 b2 },
               acc.2.1 ++ [(p.1, "error: " ++ m)], acc.2.2 ++ tA ++ tB)
          | (b2, .ok ts, tB) =>
              ({ st1 with backends := ainsert st1.backends p.1 b2,
                          toolMap := indexTools st1.toolMap b2.id ts },
               acc.2.1 ++ [(p.1, "connected (" ++ toString ts.length ++ " tools)")],
               acc.2.2 ++ tA ++ tB)
      else
        (st1, acc.2.1 ++ [(p.1, "registered (lazy)")], acc.2.2)

/-- `load_from_config`: replace `_config` from disk, then run the loop
body over every definition; a failing backend never aborts the rest. -/
def loadFromConfigF (s : RegState) (oracle : String → ConnectOutcome × ListOutcome)
    (now : Nat) : StepOut :=
  let mc := loadConfigReg s.file
  let s0 := { s with memConfig := mc }
  let out := mc.backendsCfg.foldl (loadOne oracle now) (s0, [], [])
  (out.1, .ok (.table out.2.1), out.2.2)

/-- `add_backend`: validate id uniqueness, then prefix presence and
uniqueness (the duplicate-prefix message names the first registered
backend holding the prefix), all before any mutation; construct and
register the backend; when `connect` and the config is enabled, connect
and enumerate, catching any failure into the report; persist
unconditionally at the end of the successful (non-raising) path. -/
def addBackendF (s : RegState) (backend_id : String) (cfg : BackendConfig)
    (connect : Bool) (co : ConnectOutcome) (lo : ListOutcome) (now : Nat) : StepOut :=
  if (alookup s.backends backend_id).isSome then
    (s, .error (.valueError ("Backend '" ++ backend_id ++ "' already exists")), [])
  else
    let newPfx := cfg.pfx.getD ""
    if newPfx = "" then (s, .error (.valueError "prefix is required"), [])
    else
      match s.backends.find? (fun p => p.2.pfx = newPfx) with
      | some p =>
          (s, .error (.valueError ("Prefix '" ++ newPfx ++ "' already in use by backend '"
                ++ p.2.id ++ "'")), [])
      | none =>
        match createBackend (sepOf s) backend_id cfg with
        | .error e => (s, .error e, [])
        | .ok b =>
          let s1 := { s with backends := ainsert s.backends backend_id b }
          if connect ∧ cfg.enabled then
            match backendConnect b co with
            | (b', some m, tA) =>
                let s2 := { s1 with backends := ainsert s1.backends backend_id b' }
                (persist s2, .ok (.add backend_id "error" none (some m)), tA)
            | (b', none, tA) =>
              match backendListTools b' now lo with
              | (b2, .error m, tB) =>
                  let s2 := { s1 with backends := ainsert s1.backends backend_id b2 }
                  (persist s2, .ok (.add backend_id "error" none (some m)), tA ++ tB)
              | (b2, .ok ts, tB) =>
                  let s2 := { s1 with backends := ainsert s1.backends backend_id b2 }
                  let s3 := { s2 with toolMap := indexTools s2.toolMap b2.id ts }
                  (persist s3, .ok (.add backend_id "connected" (some ts.length) none),
                   tA ++ tB)
          else
            (persist s1, .ok (.add backend_id "registered" none none), [])

/-- `remove_backend`: missing id raises `ValueError`; a `CONNECTED`
backend is disconnected first (and only then); unindex, delete, persist. -/
def removeBackendF (s : RegState) (backend_id : String) : StepOut :=
  match alookup s.backends backend_id with
  | none => (s, .error (.valueError ("Backend '" ++ backend_id ++ "' not found")), [])
  | some b =>
    let (s1, tr) :=
      if b.state = .connected then
        let (b', tA) := backendDisconnect b
        ({ s with backends := ainsert s.backends backend_id b' }, tA)
      else (s, ([] : List Action))
    let s2 := { s1 with toolMap := unindexBackend s1.toolMap backend_id }
    let s3 := { s2 with backends := aerase s2.backends backend_id }
    (persist s3, .ok (.removed backend_id), tr)

/-- `enable_backend`: missing id raises; set `enabled`, then connect and
enumerate; persist on both the success and the caught-failure path. -/
def enableBackendF (s : RegState) (backend_id : String) (co : ConnectOutcome)
    (lo : ListOutcome) (now : Nat) : StepOut :=
  match alookup s.backends backend_id with
  | none => (s, .error (.valueError ("Backend '" ++ backend_id ++ "' not found")), [])
  | some b =>
    let b0 := { b with config := { b.config with enabled := true } }
    let s1 := { s with backends := ainsert s.backends backend_id b0 }
    match backendConnect b0 co with
    | (b', some m, tA) =>
        let s2 := { s1 with backends := ainsert s1.backends backend_id b' }
        (persist s2, .ok (.enabledR backend_id none (some m)), tA)
    | (b', none, tA) =>
      match backendListTools b' now lo with
      | (b2, .error m, tB) =>
          let s2 := { s1 with backends := ainsert s1.backends backend_id b2 }
          (persist s2, .ok (.enabledR backend_id none (some m)), tA ++ tB)
      | (b2, .ok ts, tB) =>
          let s2 := { s1 with backends := ainsert s1.backends backend_id b2 }
          let s3 := { s2 with toolMap := indexTools s2.toolMap b2.id ts }
          (persist s3, .ok (.enabledR backend_id (some ts.length) none), tA ++ tB)

/-- `disable_backend`: missing id raises; disconnect only when
`CONNECTED`; clear `enabled`, unindex, persist. -/
def disableBackendF (s : RegState) (backend_id : String) : StepOut :=
  match alookup s.backends backend_id with
  | none => (s, .error (.valueError ("Backend '" ++ backend_id ++ "' not found")), [])
  | some b =>
    let (s1, b1, tr) :=
      if b.state = .connected then
        let (b', tA) := backendDisconnect b
        ({ s with backends := ainsert s.backends backend_id b' }, b', tA)
      else (s, b, ([] : List Action))
    let b2 := { b1 with config := { b1.config with enabled := false } }
    let s2 := { s1 with backends := ainsert s1.backends backend_id b2 }
    let s3 := { s2 with toolMap := unindexBackend s2.toolMap backend_id }
    (persist s3, .ok (.disabledR backend_id), tr)

/-- The body of `refresh`'s loop for one target backend. -/
def refreshOne (st : RegState) (backend_id : String)
    (oracle : String → ConnectOutcome × ListOutcome) (now : Nat) :
    RegState × (String × String) × List Action :=
  match alookup st.backends backend_id with
  | none => (st, (backend_id, ""), [])
  | some b =>
    if b.enabled = false then (st, (backend_id, "disabled"), [])
    else
      let (stA, bA, tr0) :=
        if b.state = .connected then
          let (b', tA) := backendDisconnect b
          ({ st with backends := ainsert st.backends backend_id b' }, b', tA)
        else (st, b, ([] : List Action))
      match backendConnect bA (oracle backend_id).1 with
      | (b', some m, tA) =>
          ({ stA with backends := ainsert stA.backends backend_id b' },
           (backend_id, "error: " ++ m), tr0 ++ tA)
      | (b', none, tA) =>
        match backendListTools b' now (oracle backend_id).2 with
        | (b2, .error m, tB) =>
            ({ stA with backends := ainsert stA.backends backend_id b2 },
             (backend_id, "error: " ++ m), tr0 ++ tA ++ tB)
        | (b2, .ok ts, tB) =>
            let st2 := { stA with backends := ainsert stA.backends backend_id b2 }
            let st3 := { st2 with toolMap := indexTools st2.toolMap b2.id ts }
            (st3, (backend_id, "refreshed (" ++ toString ts.length ++ " tools)"),
             tr0 ++ tA ++ tB)

/-- The all-backends branch of `refresh`: run the loop over a snapshot
of the table's ids, collecting per-backend outcomes without propagating
any backend failure. -/
def refreshAll (s : RegState) (oracle : String → ConnectOutcome × ListOutcome)
    (now : Nat) : StepOut :=
  let out := (akeys s.backends).foldl
    (fun (acc : RegState × List (String × String) × List Action) bid =>
      let (st, reps, tr) := acc
      let (st', rep, tr') := refreshOne st bid oracle now
      (st', reps ++ [rep], tr ++ tr')) (s, [], [])
  (out.1, .ok (.table out.2.1), out.2.2)

/-- `refresh`: the target list is built by
`[self._backends[backend_id]] if backend_id else list(...)` — a Python
truthiness test, so both `None` and the empty string select the
all-backends branch.  For a truthy id the dict subscript raises
`KeyError` when the id is missing; the explicit not-found check that
would raise `ValueError` is guarded by the same truthiness test and
comes only after the subscript, so it can no longer fire (it is kept
here verbatim).  `refresh` does not persist. -/
def refreshF (s : RegState) (optId : Option String)
    (oracle : String → ConnectOutcome × ListOutcome) (now : Nat) : StepOut :=
  match optId with
  | some backend_id =>
    if backend_id = "" then refreshAll s oracle now
    else
      match alookup s.backends backend_id with
      | none => (s, .error (.keyError backend_id), [])
      | some _ =>
        if (alookup s.backends backend_id).isNone then
          (s, .error (.valueError ("Backend '" ++ backend_id ++ "' not found")), [])
        else
          let (s', rep, tr) := refreshOne s backend_id oracle now
          (s', .ok (.table [rep]), tr)
  | none => refreshAll s oracle now

/-- `call_tool`: an unresolved name returns the in-band unknown-tool
result without touching any backend; a resolved backend that is not
`CONNECTED` gets a lazy connect-and-enumerate whose failure is returned
in band; otherwise (and after a successful lazy connect) the call is
forwarded.  (The map can only refer to registered backends, so the
unreachable dangling-entry case is given the unknown-tool behaviour for
totality.) -/
def callToolF (s : RegState) (name : String) (co : ConnectOutcome) (lo : ListOutcome)
    (callo : CallOutcome) (now : Nat) : StepOut :=
  match alookup s.toolMap name with
  | none => (s, .ok (.call (errText ("Unknown tool: " ++ name))), [])
  | some (bid, orig) =>
    match alookup s.backends bid with
    | none => (s, .ok (.call (errText ("Unknown tool: " ++ name))), [])
    | some b =>
      if b.state ≠ .connected then
        match backendConnect b co with
        | (b', some m, tA) =>
            ({ s with backends := ainsert s.backends bid b' },
             .ok (.call (errText ("Failed to connect backend '" ++ b.id ++ "': " ++ m))), tA)
        | (b', none, tA) =>
          match backendListTools b' now lo with
          | (b2, .error m, tB) =>
              ({ s with backends := ainsert s.backends bid b2 },
               .ok (.call (errText ("Failed to connect backend '" ++ b.id ++ "': " ++ m))),
               tA ++ tB)
          | (b2, .ok ts, tB) =>
              let s2 := { s with backends := ainsert s.backends bid b2 }
              let s3 := { s2 with toolMap := indexTools s2.toolMap b2.id ts }
              let (b3, r, tC) := backendCallTool b2 orig callo
              ({ s3 with backends := ainsert s3.backends bid b3 },
               .ok (.call r), tA ++ tB ++ tC)
      else
        let (b3, r, tC) := backendCallTool b orig callo
        ({ s with backends := ainsert s.backends bid b3 }, .ok (.call r), tC)

/-- A registry operation together with its oracles and its clock reading. -/
inductive Op where
  | load (oracle : String → ConnectOutcome × ListOutcome) (now : Nat)
  | add (backend_id : String) (cfg : BackendConfig) (connect : Bool)
        (co : ConnectOutcome) (lo : ListOutcome) (now : Nat)
  | remove (backend_id : String)
  | enable (backend_id : String) (co : ConnectOutcome) (lo : ListOutcome) (now : Nat)
  | disable (backend_id : String)
  | refresh (optId : Option String) (oracle : String → ConnectOutcome × ListOutcome) (now : Nat)
  | call (name : String) (co : ConnectOutcome) (lo : ListOutcome)
         (callo : CallOutcome) (now : Nat)

/-- One registry operation. -/
def step (s : RegState) : Op → StepOut
  | .load oracle now => loadFromConfigF s oracle now
  | .add bid cfg connect co lo now => addBackendF s bid cfg connect co lo now
  | .remove bid => removeBackendF s bid
  | .enable bid co lo now => enableBackendF s bid co lo now
  | .disable bid => disableBackendF s bid
  | .refresh optId oracle now => refreshF s optId oracle now
  | .call name co lo callo now => callToolF s name co lo callo now

/-- Run a sequence of registry operations, keeping only the state. -/
def run (s : RegState) : List Op → RegState
  | [] => s
  | op :: rest => run (step s op).1 rest

/-! ## The config store at the JSON level (`config.py`) -/

/-- A JSON value; objects are ordered key/value lists as produced by
`json.loads` (whose keys are distinct). -/
inductive Json where
  | null
  | bool (b : Bool)
  | num (n : Int)
  | str (s : String)
  | arr (xs : List Json)
  | obj (kvs : List (String × Json))

/-- `DEFAULT_SETTINGS` as a JSON object. -/
def defaultSettingsJ : List (String × Json) :=
  [("separator", .str "__"), ("lazy_connect", .bool true),
   ("tool_cache_ttl", .num 60), ("log_level", .str "info")]

/-- `dict.get(k, d)` on a JSON object. -/
def objGet (kvs : List (String × Json)) (k : String) : Option Json := alookup kvs k

/-- A config document is valid when it is a JSON object and its
`settings` value, if present, is itself an object — precisely what
`load_config`'s dict operations require of a parsed file. -/
def ValidDoc (d : Json) : Prop :=
  (∃ kvs, d = .obj kvs) ∧
  (∀ kvs sv, d = .obj kvs → objGet kvs "settings" = some sv → ∃ skvs, sv = .obj skvs)

/-- `dict(DEFAULT_SETTINGS)` followed by `settings.update(given)`:
each given binding overwrites or is appended. -/
def mergeSettings (given : List (String × Json)) : List (String × Json) :=
  given.foldl (fun acc p => ainsert acc p.1 p.2) defaultSettingsJ

/-- `load_config()` on the parsed file content (`none` = absent file;
`json.loads` of the saved text is the saved value itself).  Fills
missing settings keys from the defaults and ensures a `backends` key. -/
def load_config (f : Option Json) : Json :=
  match f with
  | none => .obj [("backends", .obj []), ("settings", .obj defaultSettingsJ)]
  | some d =>
    match d with
    | .obj kvs =>
      let given := match objGet kvs "settings" with
        | some (.obj skvs) => skvs
        | _ => []
      let kvs1 := ainsert kvs "settings" (.obj (mergeSettings given))
      let kvs2 := if (objGet kvs1 "backends").isSome then kvs1
                  else ainsert kvs1 "backends" (.obj [])
      .obj kvs2
    | other => other
  -- a non-object parsed value would raise in the source before returning;
  -- `ValidDoc` excludes it from every theorem below

/-- `save_config(data)`: serialize and write — the file then parses back
to the same value. -/
def save_config (d : Json) : Option Json := some d

/-! ## Concrete inputs, invariant definitions and side conditions -/

/-- *Catalog integrity* as the spec states it: the merged tool map has an
entry `t.namespaced_name -> (B, t.original_name)` for every tool `t` of
every backend `B` that is `CONNECTED` and enabled, and no entry whose
backend is in any other state or disabled. -/
def CatalogIntegrity (s : RegState) : Prop :=
  (∀ p ∈ s.backends, p.2.state = .connected → p.2.enabled = true →
     ∀ t ∈ p.2.tools,
       alookup s.toolMap t.namespaced_name = some (p.2.id, t.original_name)) ∧
  (∀ e ∈ s.toolMap, ∃ p ∈ s.backends,
     p.2.id = e.2.1 ∧ p.2.state = .connected ∧ p.2.enabled = true)

instance (s : RegState) : Decidable (CatalogIntegrity s) := by
  unfold CatalogIntegrity
  infer_instance

/-- Strengthened induction invariant: dict key discipline, key/id
agreement, and the two catalog directions with the map entry tied to a
concrete tool of its backend. -/
def StrongInv (s : RegState) : Prop :=
  NodupK s.backends ∧ NodupK s.toolMap ∧
  (∀ p ∈ s.backends, p.2.id = p.1) ∧
  (∀ e ∈ s.toolMap, ∃ p ∈ s.backends,
     p.1 = e.2.1 ∧ p.2.state = .connected ∧ p.2.enabled = true ∧
     ∃ t ∈ p.2.tools, t.namespaced_name = e.1 ∧ t.original_name = e.2.2) ∧
  (∀ p ∈ s.backends, p.2.state = .connected → p.2.enabled = true →
     ∀ t ∈ p.2.tools,
       alookup s.toolMap t.namespaced_name = some (p.1, t.original_name))

/-- The side condition under which an operation keeps the catalog
invariant: only `add_backend`, `remove_backend` and `disable_backend`
qualify, and an `add_backend` must bring namespaced names that do not
collide with any currently registered backend's tools (the registry
validates prefix uniqueness but not full-name disjointness). -/
def SafeOp (s : RegState) : Op → Prop
  | .add _ cfg _ _ lo _ =>
      ∀ raws, lo = .ok raws → ∀ r ∈ raws, ∀ p ∈ s.backends, ∀ t ∈ p.2.tools,
        cfg.pfx.getD "" ++ sepOf s ++ r.name ≠ t.namespaced_name
  | .remove _ => True
  | .disable _ => True
  | _ => False

/-- A run made of safe operations only. -/
def SafeRun : RegState → List Op → Prop
  | _, [] => True
  | s, op :: rest => SafeOp s op ∧ SafeRun (step s op).1 rest

/-- An http backend config with the given prefix. -/
def exHttpCfg (p : String) : BackendConfig :=
  { btype := "http", pfx := some p, url := some ("http://u/" ++ p) }

/-- A one-tool upstream catalog. -/
def exPing : RawTool := { name := "ping" }

/-- Add a backend whose connect and enumeration succeed, then route a
call to it whose transport raises `httpx.ConnectError`. -/
def c1ops : List Op :=
  [.add "a" (exHttpCfg "a") true .ok (.ok [exPing]) 0,
   .call "a__ping" .ok (.ok []) .connectError 1]

/-- A single successful `add_backend`, used as the safe-run witness. -/
def c1okOps : List Op := [.add "a" (exHttpCfg "a") true .ok (.ok [exPing]) 0]

/-- An http backend that is already connected. -/
def c3backend : Backend :=
  { id := "a", config := exHttpCfg "a", pfx := "a", separator := "__",
    state := .connected, initialized := true }

/-- A config whose required keys for its type are present, so that
`_create_backend` succeeds (for any separator). -/
def CreatableCfg (cfg : BackendConfig) : Prop :=
  (cfg.btype = "http" ∧ cfg.pfx ≠ none ∧ cfg.url ≠ none) ∨
  (cfg.btype = "stdio" ∧ cfg.pfx ≠ none ∧ cfg.command ≠ none)

instance (cfg : BackendConfig) : Decidable (CreatableCfg cfg) := by
  unfold CreatableCfg
  infer_instance

/-- A config file with one disabled http backend definition. -/
def c5file : RegDoc :=
  { backendsCfg := [("d", { btype := "http", pfx := some "d",
                            url := some "http://u/d", enabled := false })] }

/-- A config file with one enabled http backend and eager connect. -/
def c5file2 : RegDoc :=
  { backendsCfg := [("a", exHttpCfg "a")],
    settings := some { lazy_connect := false } }

/-- A connected http backend whose cached tool list is empty but fresh. -/
def c7backend : Backend :=
  { id := "a", config := exHttpCfg "a", pfx := "a", separator := "__",
    state := .connected, initialized := true, tools := [],
    tools_cache_time := 100, ttl := 60 }

/-- A connected http backend with a nonempty fresh cache. -/
def c7cached : Backend :=
  { c7backend with tools := [mkToolInfo c7backend exPing] }

/-- A document with one unknown key, a backends object and no settings. -/
def c8kvs : List (String × Json) :=
  [("backends", .obj []), ("extra", .str "x")]

/-- A stdio backend that entered `ERROR` through a `list_tools` failure,
its session and exit stack still open. -/
def c9backend : Backend :=
  { id := "sd", config := { btype := "stdio", pfx := some "s", command := some "cmd" },
    pfx := "s", separator := "__", state := .error,
    error_message := some "listing failed", sessionOpen := true }

/-- A registry holding only that backend. -/
def c9state : RegState := { backends := [("sd", c9backend)] }

/-! ## Association-list lemmas -/

theorem alookup_ainsert_self {α : Type} (l : List (String × α)) (k : String) (v : α) :
    alookup (ainsert l k v) k = some v := by
  induction l with
  | nil => simp [ainsert, alookup]
  | cons p rest ih =>
    obtain ⟨k', v'⟩ := p
    by_cases h : k' = k
    · simp [ainsert, alookup, h]
    · simp [ainsert, alookup, h, ih]

theorem alookup_ainsert_ne {α : Type} {l : List (String × α)} {k k' : String} (v : α)
    (h : k' ≠ k) : alookup (ainsert l k v) k' = alookup l k' := by
  have hkk : ¬ k = k' := fun hh => h hh.symm
  induction l with
  | nil => simp [ainsert, alookup, hkk]
  | cons p rest ih =>
    obtain ⟨k0, v0⟩ := p
    by_cases h0 : k0 = k
    · subst h0
      simp [ainsert, alookup, hkk]
    · simp only [ainsert, if_neg h0, alookup]
      by_cases h1 : k0 = k'
      · simp [h1]
      · simp [h1, ih]

theorem mem_ainsert {α : Type} {l : List (String × α)} {k : String} {v : α}
    {x : String × α} (h : x ∈ ainsert l k v) : x = (k, v) ∨ x ∈ l := by
  induction l with
  | nil => simpa [ainsert] using h
  | cons p rest ih =>
    obtain ⟨k0, v0⟩ := p
    by_cases h0 : k0 = k
    · simp only [ainsert, if_pos h0] at h
      rcases List.mem_cons.mp h with h1 | h1
      · exact Or.inl h1
      · exact Or.inr (List.mem_cons_of_mem _ h1)
    · simp only [ainsert, if_neg h0] at h
      rcases List.mem_cons.mp h with h1 | h1
      · exact Or.inr (h1 ▸ List.mem_cons_self _ _)
      · rcases ih h1 with h2 | h2
        · exact Or.inl h2
        · exact Or.inr (List.mem_cons_of_mem _ h2)

theorem mem_ainsert_of_mem {α : Type} {l : List (String × α)} {k : String} (v : α)
    {x : String × α} (hx : x ∈ l) (hk : x.1 ≠ k) : x ∈ ainsert l k v := by
  induction l with
  | nil => cases hx
  | cons p rest ih =>
    obtain ⟨k0, v0⟩ := p
    by_cases h0 : k0 = k
    · simp only [ainsert, if_pos h0]
      rcases List.mem_cons.mp hx with h1 | h1
      · exact absurd (h1 ▸ h0) hk
      · exact List.mem_cons_of_mem _ h1
    · simp only [ainsert, if_neg h0]
      rcases List.mem_cons.mp hx with h1 | h1
      · exact h1 ▸ List.mem_cons_self _ _
      · exact List.mem_cons_of_mem _ (ih h1)

theorem akeys_ainsert_sub {α : Type} (l : List (String × α)) (k : String) (v : α) :
    ∀ x ∈ akeys (ainsert l k v), x = k ∨ x ∈ akeys l := by
  intro x hx
  induction l with
  | nil => simpa [ainsert, akeys] using hx
  | cons p rest ih =>
    obtain ⟨k0, v0⟩ := p
    by_cases h0 : k0 = k
    · simp only [ainsert, if_pos h0, akeys, List.map_cons] at hx
      rcases List.mem_cons.mp hx with h1 | h1
      · exact Or.inl h1
      · exact Or.inr (by simp [akeys]; exact Or.inr (by simpa [akeys] using h1))
    · simp only [ainsert, if_neg h0, akeys, List.map_cons] at hx
      rcases List.mem_cons.mp hx with h1 | h1
      · exact Or.inr (by simp [akeys, h1])
      · rcases ih (by simpa [akeys] using h1) with h2 | h2
        · exact Or.inl h2
        · exact Or.inr (by simp [akeys] at h2 ⊢; exact Or.inr h2)

theorem nodupK_ainsert {α : Type} {l : List (String × α)} (k : String) (v : α)
    (h : NodupK l) : NodupK (ainsert l k v) := by
  induction l with
  | nil => simp [ainsert, NodupK, akeys]
  | cons p rest ih =>
    obtain ⟨k0, v0⟩ := p
    simp only [NodupK, akeys, List.map_cons, List.nodup_cons] at h
    by_cases h0 : k0 = k
    · subst h0
      simpa [ainsert, NodupK, akeys] using h
    · simp only [ainsert, if_neg h0, NodupK, akeys, List.map_cons, List.nodup_cons]
      refine ⟨fun hc => ?_, ih h.2⟩
      rcases akeys_ainsert_sub rest k v k0 (by simpa [akeys] using hc) with h1 | h1
      · exact h0 h1
      · exact h.1 (by simpa [akeys] using h1)

theorem mem_aerase {α : Type} {l : List (String × α)} {k : String} {x : String × α}
    (h : x ∈ aerase l k) : x ∈ l := by
  induction l with
  | nil => simp [aerase] at h
  | cons p rest ih =>
    obtain ⟨k0, v0⟩ := p
    by_cases h0 : k0 = k
    · simp only [aerase, if_pos h0] at h
      exact List.mem_cons_of_mem _ h
    · simp only [aerase, if_neg h0] at h
      rcases List.mem_cons.mp h with h1 | h1
      · exact h1 ▸ List.mem_cons_self _ _
      · exact List.mem_cons_of_mem _ (ih h1)

theorem akeys_aerase_sublist {α : Type} (l : List (String × α)) (k : String) :
    (akeys (aerase l k)).Sublist (akeys l) := by
  induction l with
  | nil => simp [aerase, akeys]
  | cons p rest ih =>
    obtain ⟨k0, v0⟩ := p
    by_cases h0 : k0 = k
    · simp only [aerase, if_pos h0, akeys, List.map_cons]
      exact List.sublist_cons_of_sublist _ (List.Sublist.refl _)
    · simpa [aerase, if_neg h0, akeys] using ih

theorem nodupK_aerase {α : Type} {l : List (String × α)} (k : String)
    (h : NodupK l) : NodupK (aerase l k) :=
  List.Nodup.sublist (akeys_aerase_sublist l k) h

theorem alookup_aerase_ne {α : Type} {l : List (String × α)} {k k' : String}
    (h : k' ≠ k) : alookup (aerase l k) k' = alookup l k' := by
  have hkk : ¬ k = k' := fun hh => h hh.symm
  induction l with
  | nil => simp [aerase]
  | cons p rest ih =>
    obtain ⟨k0, v0⟩ := p
    by_cases h0 : k0 = k
    · subst h0
      simp [aerase, alookup, hkk]
    · simp only [aerase, if_neg h0, alookup]
      by_cases h1 : k0 = k'
      · simp [h1]
      · simp [h1, ih]

theorem alookup_eq_some_mem {α : Type} {l : List (String × α)} {k : String} {v : α}
    (h : alookup l k = some v) : (k, v) ∈ l := by
  induction l with
  | nil => simp [alookup] at h
  | cons p rest ih =>
    obtain ⟨k0, v0⟩ := p
    by_cases h0 : k0 = k
    · subst h0
      rw [alookup, if_pos rfl] at h
      injection h with h
      subst h
      exact List.mem_cons_self _ _
    · simp only [alookup, if_neg h0] at h
      exact List.mem_cons_of_mem _ (ih h)

theorem alookup_none_of_not_mem {α : Type} {l : List (String × α)} {k : String}
    (h : k ∉ akeys l) : alookup l k = none := by
  induction l with
  | nil => simp [alookup]
  | cons p rest ih =>
    obtain ⟨k0, v0⟩ := p
    simp only [akeys, List.map_cons, List.mem_cons] at h
    push_neg at h
    have hne : ¬ k0 = k := fun hh => h.1 hh.symm
    simp only [alookup, if_neg hne]
    exact ih (by simpa [akeys] using h.2)

theorem mem_alookup {α : Type} {l : List (String × α)} {k : String} {v : α}
    (hn : NodupK l) (h : (k, v) ∈ l) : alookup l k = some v := by
  induction l with
  | nil => cases h
  | cons p rest ih =>
    obtain ⟨k0, v0⟩ := p
    simp only [NodupK, akeys, List.map_cons, List.nodup_cons] at hn
    rcases List.mem_cons.mp h with h1 | h1
    · injection h1 with hk hv
      subst hk
      subst hv
      simp [alookup]
    · by_cases h0 : k0 = k
      · subst h0
        exact absurd (List.mem_map_of_mem Prod.fst h1) hn.1
      · simp only [alookup, if_neg h0]
        exact ih hn.2 h1

theorem nodupK_filter {α : Type} {l : List (String × α)} (f : String × α → Bool)
    (h : NodupK l) : NodupK (l.filter f) :=
  List.Nodup.sublist (List.Sublist.map _ (List.filter_sublist l)) h

theorem alookup_filter_pass {α : Type} {l : List (String × α)} {k : String} {v : α}
    {f : String × α → Bool} (hn : NodupK l) (hl : alookup l k = some v)
    (hp : f (k, v) = true) : alookup (l.filter f) k = some v :=
  mem_alookup (nodupK_filter f hn) (List.mem_filter.mpr ⟨alookup_eq_some_mem hl, hp⟩)

theorem alookup_filter_none {α : Type} {l : List (String × α)} {k : String}
    {f : String × α → Bool}
    (h : ∀ v, (k, v) ∈ l → f (k, v) = false) : alookup (l.filter f) k = none := by
  apply alookup_none_of_not_mem
  intro hc
  simp only [akeys, List.mem_map] at hc
  obtain ⟨⟨k', v'⟩, hm, hk⟩ := hc
  obtain ⟨hmem, hf⟩ := List.mem_filter.mp hm
  cases hk
  exact absurd hf (by simp [h v' hmem])

/-! Lemmas about folding dict assignments over a tool list, the shape of
`_index_tools`. -/

section FoldInsert

variable {α β : Type} (key : α → String) (val : α → β)

theorem alookup_foldl_ainsert_not_mem {ts : List α} {k : String}
    (h : ∀ t ∈ ts, key t ≠ k) (tm : List (String × β)) :
    alookup (ts.foldl (fun m t => ainsert m (key t) (val t)) tm) k = alookup tm k := by
  induction ts generalizing tm with
  | nil => simp
  | cons t rest ih =>
    simp only [List.foldl_cons]
    rw [ih (fun t' ht' => h t' (List.mem_cons_of_mem _ ht'))]
    exact alookup_ainsert_ne _ (fun hh => h t (List.mem_cons_self _ _) hh.symm)

theorem nodupK_foldl_ainsert {ts : List α} {tm : List (String × β)} (hn : NodupK tm) :
    NodupK (ts.foldl (fun m t => ainsert m (key t) (val t)) tm) := by
  induction ts generalizing tm with
  | nil => exact hn
  | cons t rest ih => exact ih (nodupK_ainsert _ _ hn)

theorem mem_foldl_ainsert {ts : List α} {tm : List (String × β)} {x : String × β}
    (h : x ∈ ts.foldl (fun m t => ainsert m (key t) (val t)) tm) :
    (∃ t ∈ ts, x = (key t, val t)) ∨ x ∈ tm := by
  induction ts generalizing tm with
  | nil => exact Or.inr h
  | cons t rest ih =>
    simp only [List.foldl_cons] at h
    rcases ih h with h1 | h1
    · obtain ⟨t', ht', hx⟩ := h1
      exact Or.inl ⟨t', List.mem_cons_of_mem _ ht', hx⟩
    · rcases mem_ainsert h1 with h2 | h2
      · exact Or.inl ⟨t, List.mem_cons_self _ _, h2⟩
      · exact Or.inr h2

theorem alookup_foldl_ainsert_mem {ts : List α}
    (hcons : ∀ t₁ ∈ ts, ∀ t₂ ∈ ts, key t₁ = key t₂ → val t₁ = val t₂)
    {t : α} (ht : t ∈ ts) (tm : List (String × β)) :
    alookup (ts.foldl (fun m t => ainsert m (key t) (val t)) tm) (key t) = some (val t) := by
  induction ts generalizing t tm with
  | nil => cases ht
  | cons t0 rest ih =>
    simp only [List.foldl_cons]
    by_cases hmem : ∃ t' ∈ rest, key t' = key t
    · obtain ⟨t', ht', hk⟩ := hmem
      have hrec := ih (fun a ha b hb => hcons a (List.mem_cons_of_mem _ ha) b (List.mem_cons_of_mem _ hb))
        ht' (ainsert tm (key t0) (val t0))
      have hv : val t' = val t := hcons t' (List.mem_cons_of_mem _ ht') t ht hk
      rw [hk, hv] at hrec
      exact hrec
    · push_neg at hmem
      rcases List.mem_cons.mp ht with h1 | h1
      · subst h1
        rw [alookup_foldl_ainsert_not_mem key val (fun a ha => hmem a ha)]
        exact alookup_ainsert_self _ _ _
      · exact absurd (rfl : key t = key t) (by simpa using hmem t h1)

end FoldInsert

theorem mem_ainsert_self {α : Type} (l : List (String × α)) (k : String) (v : α) :
    (k, v) ∈ ainsert l k v :=
  alookup_eq_some_mem (alookup_ainsert_self l k v)

theorem mem_aerase_of_mem {α : Type} {l : List (String × α)} {k : String}
    {x : String × α} (hx : x ∈ l) (hk : x.1 ≠ k) : x ∈ aerase l k := by
  induction l with
  | nil => cases hx
  | cons p rest ih =>
    obtain ⟨k0, v0⟩ := p
    by_cases h0 : k0 = k
    · simp only [aerase, if_pos h0]
      rcases List.mem_cons.mp hx with h1 | h1
      · exact absurd (h1 ▸ h0) hk
      · exact h1
    · simp only [aerase, if_neg h0]
      rcases List.mem_cons.mp hx with h1 | h1
      · exact h1 ▸ List.mem_cons_self _ _
      · exact List.mem_cons_of_mem _ (ih h1)

theorem mem_aerase_nodup {α : Type} {l : List (String × α)} {k : String}
    {x : String × α} (hn : NodupK l) (hx : x ∈ aerase l k) : x ∈ l ∧ x.1 ≠ k := by
  induction l with
  | nil => simp [aerase] at hx
  | cons p rest ih =>
    obtain ⟨k0, v0⟩ := p
    simp only [NodupK, akeys, List.map_cons, List.nodup_cons] at hn
    by_cases h0 : k0 = k
    · subst h0
      simp only [aerase, if_pos rfl] at hx
      refine ⟨List.mem_cons_of_mem _ hx, fun hc => ?_⟩
      exact hn.1 (hc ▸ List.mem_map_of_mem Prod.fst hx)
    · simp only [aerase, if_neg h0] at hx
      rcases List.mem_cons.mp hx with h1 | h1
      · exact ⟨h1 ▸ List.mem_cons_self _ _, by rw [h1]; exact h0⟩
      · obtain ⟨h2, h3⟩ := ih hn.2 h1
        exact ⟨List.mem_cons_of_mem _ h2, h3⟩

theorem alookup_map_snd {α β : Type} (l : List (String × α)) (f : α → β) (k : String) :
    alookup (l.map (fun p => (p.1, f p.2))) k = (alookup l k).map f := by
  induction l with
  | nil => simp [alookup]
  | cons p rest ih =>
    obtain ⟨k0, v0⟩ := p
    by_cases h0 : k0 = k
    · simp [alookup, h0]
    · simp [alookup, h0, ih]

theorem string_append_left_cancel {a b c : String} (h : a ++ b = a ++ c) : b = c := by
  have hd : (a ++ b).data = (a ++ c).data := by rw [h]
  simp [String.data_append] at hd
  exact String.ext hd

/-! ## The catalog-integrity invariant (claim C1) -/


theorem catalogIntegrity_of_strongInv {s : RegState} (h : StrongInv s) :
    CatalogIntegrity s := by
  obtain ⟨-, -, hid, hsound, hcomp⟩ := h
  constructor
  · intro p hp hst hen t ht
    rw [hid p hp]
    exact hcomp p hp hst hen t ht
  · intro e he
    obtain ⟨p, hp, hk, hst, hen, -⟩ := hsound e he
    exact ⟨p, hp, (hid p hp).trans hk, hst, hen⟩


/-! ## Structural lemmas towards the invariant's preservation -/

theorem ainsert_ainsert {α : Type} (l : List (String × α)) (k : String) (v v' : α) :
    ainsert (ainsert l k v) k v' = ainsert l k v' := by
  induction l with
  | nil => simp [ainsert]
  | cons p rest ih =>
    obtain ⟨k0, v0⟩ := p
    by_cases h0 : k0 = k
    · simp [ainsert, h0]
    · simp [ainsert, h0, ih]

theorem aerase_ainsert {α : Type} (l : List (String × α)) (k : String) (v : α) :
    aerase (ainsert l k v) k = aerase l k := by
  induction l with
  | nil => simp [ainsert, aerase]
  | cons p rest ih =>
    obtain ⟨k0, v0⟩ := p
    by_cases h0 : k0 = k
    · simp [ainsert, aerase, h0]
    · simp [ainsert, aerase, h0, ih]

theorem not_mem_akeys_of_alookup_none {α : Type} {l : List (String × α)} {k : String}
    (h : alookup l k = none) : k ∉ akeys l := by
  induction l with
  | nil => simp [akeys]
  | cons p rest ih =>
    obtain ⟨k0, v0⟩ := p
    by_cases h0 : k0 = k
    · simp [alookup, h0] at h
    · simp only [alookup, if_neg h0] at h
      simp only [akeys, List.map_cons, List.mem_cons]
      push_neg
      exact ⟨fun hh => h0 hh.symm, by simpa [akeys] using ih h⟩

theorem mem_ainsert_nodup {α : Type} {l : List (String × α)} {k : String} {v : α}
    {x : String × α} (hn : NodupK l) (hx : x ∈ ainsert l k v) :
    x = (k, v) ∨ (x ∈ l ∧ x.1 ≠ k) := by
  induction l with
  | nil => simp only [ainsert, List.mem_singleton] at hx; exact Or.inl hx
  | cons p rest ih =>
    obtain ⟨k0, v0⟩ := p
    simp only [NodupK, akeys, List.map_cons, List.nodup_cons] at hn
    by_cases h0 : k0 = k
    · subst h0
      simp only [ainsert, if_pos rfl] at hx
      rcases List.mem_cons.mp hx with h1 | h1
      · exact Or.inl h1
      · refine Or.inr ⟨List.mem_cons_of_mem _ h1, fun hc => ?_⟩
        exact hn.1 (hc ▸ List.mem_map_of_mem Prod.fst h1)
    · simp only [ainsert, if_neg h0] at hx
      rcases List.mem_cons.mp hx with h1 | h1
      · exact Or.inr ⟨h1 ▸ List.mem_cons_self _ _, by rw [h1]; exact h0⟩
      · rcases ih hn.2 h1 with h2 | h2
        · exact Or.inl h2
        · exact Or.inr ⟨List.mem_cons_of_mem _ h2.1, h2.2⟩

theorem persist_backends (s : RegState) : (persist s).backends = s.backends := rfl

theorem persist_toolMap (s : RegState) : (persist s).toolMap = s.toolMap := rfl

theorem strongInv_persist {s : RegState} (h : StrongInv s) : StrongInv (persist s) := h

/-! Characterizations of the backend operations used by the preservation
arguments. -/

theorem backendConnect_fst_id (b : Backend) (o : ConnectOutcome) :
    (backendConnect b o).1.id = b.id := by
  cases o <;> by_cases hty : b.config.btype = "stdio" <;> simp [backendConnect, hty]

theorem backendConnect_fst_config (b : Backend) (o : ConnectOutcome) :
    (backendConnect b o).1.config = b.config := by
  cases o <;> by_cases hty : b.config.btype = "stdio" <;> simp [backendConnect, hty]

theorem backendConnect_fst_pfx (b : Backend) (o : ConnectOutcome) :
    (backendConnect b o).1.pfx = b.pfx := by
  cases o <;> by_cases hty : b.config.btype = "stdio" <;> simp [backendConnect, hty]

theorem backendConnect_fst_separator (b : Backend) (o : ConnectOutcome) :
    (backendConnect b o).1.separator = b.separator := by
  cases o <;> by_cases hty : b.config.btype = "stdio" <;> simp [backendConnect, hty]

theorem backendConnect_fst_tools (b : Backend) (o : ConnectOutcome) :
    (backendConnect b o).1.tools = b.tools := by
  cases o <;> by_cases hty : b.config.btype = "stdio" <;> simp [backendConnect, hty]

theorem backendConnect_exc_ok (b : Backend) :
    (backendConnect b .ok).2.1 = none := by
  by_cases hty : b.config.btype = "stdio" <;> simp [backendConnect, hty]

theorem backendConnect_exc_fail (b : Backend) (m : String) :
    (backendConnect b (.fail m)).2.1 = some m := by
  by_cases hty : b.config.btype = "stdio" <;> simp [backendConnect, hty]

theorem backendConnect_ok_state (b : Backend) :
    (backendConnect b .ok).1.state = .connected := by
  by_cases hty : b.config.btype = "stdio" <;> simp [backendConnect, hty]

theorem backendConnect_fail_state (b : Backend) (m : String) :
    (backendConnect b (.fail m)).1.state = .error := by
  by_cases hty : b.config.btype = "stdio" <;> simp [backendConnect, hty]

theorem backendConnect_fail_errmsg (b : Backend) (m : String) :
    (backendConnect b (.fail m)).1.error_message = some m := by
  by_cases hty : b.config.btype = "stdio" <;> simp [backendConnect, hty]

theorem backendConnect_ok_session (b : Backend) (hty : b.config.btype = "stdio") :
    (backendConnect b .ok).1.sessionOpen = true := by
  simp [backendConnect, hty]

theorem backendConnect_state_cases (b : Backend) (o : ConnectOutcome) :
    (backendConnect b o).1.state = .connected ∨ (backendConnect b o).1.state = .error := by
  cases o
  · exact Or.inl (backendConnect_ok_state b)
  · exact Or.inr (backendConnect_fail_state b _)

theorem backendListTools_fst_id (b : Backend) (now : Nat) (o : ListOutcome) :
    (backendListTools b now o).1.id = b.id := by
  unfold backendListTools
  split
  · rfl
  · split
    · rfl
    · cases o <;> simp

theorem backendListTools_fst_config (b : Backend) (now : Nat) (o : ListOutcome) :
    (backendListTools b now o).1.config = b.config := by
  unfold backendListTools
  split
  · rfl
  · split
    · rfl
    · cases o <;> simp

theorem backendListTools_fst_pfx (b : Backend) (now : Nat) (o : ListOutcome) :
    (backendListTools b now o).1.pfx = b.pfx := by
  unfold backendListTools
  split
  · rfl
  · split
    · rfl
    · cases o <;> simp

theorem backendListTools_fst_separator (b : Backend) (now : Nat) (o : ListOutcome) :
    (backendListTools b now o).1.separator = b.separator := by
  unfold backendListTools
  split
  · rfl
  · split
    · rfl
    · cases o <;> simp

theorem backendListTools_fst_session (b : Backend) (now : Nat) (o : ListOutcome) :
    (backendListTools b now o).1.sessionOpen = b.sessionOpen := by
  unfold backendListTools
  split
  · rfl
  · split
    · rfl
    · cases o <;> simp

theorem backendListTools_fst_state_of_ok {b : Backend} {now : Nat} {o : ListOutcome}
    {ts : List BackendToolInfo} (h : (backendListTools b now o).2.1 = .ok ts) :
    (backendListTools b now o).1.state = b.state := by
  by_cases h1 : b.config.btype = "stdio" ∧ b.sessionOpen = false
  · unfold backendListTools at h
    simp [h1] at h
  · by_cases h2 : b.tools ≠ [] ∧ now - b.tools_cache_time < b.ttl
    · unfold backendListTools
      simp [h1, h2]
    · cases o with
      | ok raws =>
        unfold backendListTools
        simp [h1, h2]
      | fail m =>
        unfold backendListTools at h
        simp [h1, h2] at h

theorem backendListTools_error_state {b : Backend} {now : Nat} {o : ListOutcome}
    {m : String} (hses : b.config.btype = "stdio" → b.sessionOpen = true)
    (h : (backendListTools b now o).2.1 = .error m) :
    (backendListTools b now o).1.state = .error := by
  by_cases h1 : b.config.btype = "stdio" ∧ b.sessionOpen = false
  · rw [hses h1.1] at h1
    simp at h1
  · by_cases h2 : b.tools ≠ [] ∧ now - b.tools_cache_time < b.ttl
    · unfold backendListTools at h
      simp [h1, h2] at h
    · cases o with
      | ok raws =>
        unfold backendListTools at h
        simp [h1, h2] at h
      | fail mm =>
        unfold backendListTools
        simp [h1, h2]

theorem backendListTools_ok_tools {b : Backend} {now : Nat} {o : ListOutcome}
    {ts : List BackendToolInfo} (h : (backendListTools b now o).2.1 = .ok ts) :
    (backendListTools b now o).1.tools = ts ∧
      (ts = b.tools ∨ ∃ raws, o = .ok raws ∧ ts = raws.map (mkToolInfo b)) := by
  by_cases h1 : b.config.btype = "stdio" ∧ b.sessionOpen = false
  · unfold backendListTools at h
    simp [h1] at h
  · by_cases h2 : b.tools ≠ [] ∧ now - b.tools_cache_time < b.ttl
    · unfold backendListTools at h ⊢
      simp only [if_neg h1, if_pos h2] at h ⊢
      simp only [Except.ok.injEq] at h
      exact ⟨by simp [h], Or.inl h.symm⟩
    · cases o with
      | ok raws =>
        unfold backendListTools at h ⊢
        simp only [if_neg h1, if_neg h2] at h ⊢
        simp only [Except.ok.injEq] at h
        exact ⟨by simp [h], Or.inr ⟨raws, rfl, h.symm⟩⟩
      | fail m =>
        unfold backendListTools at h
        simp [h1, h2] at h

/-! ## Preservation of the strengthened invariant -/

/-- Registering a fresh backend that is not `CONNECTED` (a lazy
registration, or one whose connect or enumeration failed) keeps the
invariant: the tool map is untouched and the new backend contributes
nothing to either direction. -/
theorem strongInv_register {s : RegState} {bid : String} {b : Backend}
    (h : StrongInv s) (hfresh : alookup s.backends bid = none)
    (hbid : b.id = bid) (hst : b.state ≠ .connected) :
    StrongInv { s with backends := ainsert s.backends bid b } := by
  obtain ⟨hn, hm, hid, hsound, hcomp⟩ := h
  have hnk : bid ∉ akeys s.backends := not_mem_akeys_of_alookup_none hfresh
  refine ⟨nodupK_ainsert _ _ hn, hm, ?_, ?_, ?_⟩
  · intro p hp
    rcases mem_ainsert hp with h1 | h1
    · rw [h1]; exact hbid
    · exact hid p h1
  · intro e he
    obtain ⟨p, hp, hk, hst', hen, t, ht, hnm, ho⟩ := hsound e he
    have hne : p.1 ≠ bid := fun hc => hnk (hc ▸ List.mem_map_of_mem Prod.fst hp)
    exact ⟨p, mem_ainsert_of_mem _ hp hne, hk, hst', hen, t, ht, hnm, ho⟩
  · intro p hp hst' hen t ht
    rcases mem_ainsert hp with h1 | h1
    · rw [h1] at hst'
      exact absurd hst' hst
    · exact hcomp p h1 hst' hen t ht

/-- Registering a fresh `CONNECTED`, enabled backend together with
indexing its tools keeps the invariant, provided its namespaced names
are internally consistent and disjoint from every already-registered
backend's tools. -/
theorem strongInv_add_indexed {s : RegState} {bid : String} {b2 : Backend}
    (h : StrongInv s) (hfresh : alookup s.backends bid = none)
    (hbid : b2.id = bid) (hst : b2.state = .connected) (hen : b2.enabled = true)
    (hcons : ∀ t₁ ∈ b2.tools, ∀ t₂ ∈ b2.tools,
       t₁.namespaced_name = t₂.namespaced_name → t₁.original_name = t₂.original_name)
    (hdisj : ∀ t ∈ b2.tools, ∀ p ∈ s.backends, ∀ t' ∈ p.2.tools,
       t.namespaced_name ≠ t'.namespaced_name) :
    StrongInv { s with backends := ainsert s.backends bid b2,
                       toolMap := indexTools s.toolMap bid b2.tools } := by
  obtain ⟨hn, hm, hid, hsound, hcomp⟩ := h
  have hnk : bid ∉ akeys s.backends := not_mem_akeys_of_alookup_none hfresh
  have hmemb : ∀ p ∈ s.backends, p.1 ≠ bid :=
    fun p hp hc => hnk (hc ▸ List.mem_map_of_mem Prod.fst hp)
  have hmfilter : NodupK (s.toolMap.filter (fun e => e.2.1 ≠ bid)) :=
    nodupK_filter _ hm
  refine ⟨nodupK_ainsert _ _ hn, ?_, ?_, ?_, ?_⟩
  · exact nodupK_foldl_ainsert (fun t : BackendToolInfo => t.namespaced_name)
      (fun t : BackendToolInfo => (bid, t.original_name)) hmfilter
  · intro p hp
    rcases mem_ainsert hp with h1 | h1
    · rw [h1]; exact hbid
    · exact hid p h1
  · intro e he
    rcases mem_foldl_ainsert (fun t : BackendToolInfo => t.namespaced_name)
        (fun t : BackendToolInfo => (bid, t.original_name)) he with h1 | h1
    · obtain ⟨t, ht, hx⟩ := h1
      subst hx
      exact ⟨(bid, b2), mem_ainsert_self _ _ _, rfl, hst, hen, t, ht, rfl, rfl⟩
    · obtain ⟨hmem, hpred⟩ := List.mem_filter.mp h1
      obtain ⟨p, hp, hk, hst', hen', t, ht, hnm, ho⟩ := hsound e hmem
      exact ⟨p, mem_ainsert_of_mem _ hp (hmemb p hp), hk, hst', hen', t, ht, hnm, ho⟩
  · intro p hp hst' hen' t ht
    rcases mem_ainsert hp with h1 | h1
    · subst h1
      show alookup (indexTools s.toolMap bid b2.tools) t.namespaced_name
        = some (bid, t.original_name)
      unfold indexTools
      exact alookup_foldl_ainsert_mem (fun t : BackendToolInfo => t.namespaced_name)
        (fun t : BackendToolInfo => (bid, t.original_name))
        (fun t₁ h₁ t₂ h₂ hk =>
          congrArg (fun o => (bid, o)) (hcons t₁ h₁ t₂ h₂ hk)) ht _
    · show alookup (indexTools s.toolMap bid b2.tools) t.namespaced_name
        = some (p.1, t.original_name)
      unfold indexTools
      rw [alookup_foldl_ainsert_not_mem (fun t : BackendToolInfo => t.namespaced_name)
        (fun t : BackendToolInfo => (bid, t.original_name))
        (fun t' ht' => hdisj t' ht' p h1 t ht)]
      exact alookup_filter_pass hm (hcomp p h1 hst' hen' t ht)
        (by simp [hmemb p h1])

/-- Disconnect-erase-unindex (the body of `remove_backend`) keeps the
invariant. -/
theorem strongInv_erase {s : RegState} (bid : String) (h : StrongInv s) :
    StrongInv { s with backends := aerase s.backends bid,
                       toolMap := unindexBackend s.toolMap bid } := by
  obtain ⟨hn, hm, hid, hsound, hcomp⟩ := h
  refine ⟨nodupK_aerase _ hn, nodupK_filter _ hm, ?_, ?_, ?_⟩
  · intro p hp
    exact hid p (mem_aerase hp)
  · intro e he
    obtain ⟨hmem, hpred⟩ := List.mem_filter.mp he
    obtain ⟨p, hp, hk, hst', hen, t, ht, hnm, ho⟩ := hsound e hmem
    have hne : p.1 ≠ bid := by
      rw [hk]
      simpa using hpred
    exact ⟨p, mem_aerase_of_mem hp hne, hk, hst', hen, t, ht, hnm, ho⟩
  · intro p hp hst' hen t ht
    obtain ⟨hmem, hne⟩ := mem_aerase_nodup hn hp
    show alookup (unindexBackend s.toolMap bid) t.namespaced_name
      = some (p.1, t.original_name)
    unfold unindexBackend
    exact alookup_filter_pass hm (hcomp p hmem hst' hen t ht) (by simp [hne])

/-- Overwriting a backend with a disabled replacement while unindexing
it (the shape of `disable_backend`) keeps the invariant. -/
theorem strongInv_disable_shape {s : RegState} {bid : String} {b2 : Backend}
    (h : StrongInv s) (hbid : b2.id = bid) (hen : b2.enabled = false) :
    StrongInv { s with backends := ainsert s.backends bid b2,
                       toolMap := unindexBackend s.toolMap bid } := by
  obtain ⟨hn, hm, hid, hsound, hcomp⟩ := h
  refine ⟨nodupK_ainsert _ _ hn, nodupK_filter _ hm, ?_, ?_, ?_⟩
  · intro p hp
    rcases mem_ainsert hp with h1 | h1
    · rw [h1]; exact hbid
    · exact hid p h1
  · intro e he
    obtain ⟨hmem, hpred⟩ := List.mem_filter.mp he
    obtain ⟨p, hp, hk, hst', hen', t, ht, hnm, ho⟩ := hsound e hmem
    have hne : p.1 ≠ bid := by
      rw [hk]
      simpa using hpred
    exact ⟨p, mem_ainsert_of_mem _ hp hne, hk, hst', hen', t, ht, hnm, ho⟩
  · intro p hp hst' hen' t ht
    rcases mem_ainsert_nodup hn hp with h1 | h1
    · rw [h1] at hen'
      simp only at hen'
      simp [hen] at hen'
    · obtain ⟨hmem, hne⟩ := h1
      show alookup (unindexBackend s.toolMap bid) t.namespaced_name
        = some (p.1, t.original_name)
      unfold unindexBackend
      exact alookup_filter_pass hm (hcomp p hmem hst' hen' t ht) (by simp [hne])

/-- Namespacing is injective in the tool name for a fixed backend. -/
theorem namespaceName_inj {b : Backend} {n₁ n₂ : String}
    (h : b.namespaceName n₁ = b.namespaceName n₂) : n₁ = n₂ := by
  unfold Backend.namespaceName at h
  have hd : (b.pfx ++ b.separator ++ n₁).data = (b.pfx ++ b.separator ++ n₂).data := by
    rw [h]
  simp only [String.data_append, List.append_assoc] at hd
  exact String.ext (List.append_cancel_left (List.append_cancel_left hd))

/-- What a successful `_create_backend` guarantees about the new backend. -/
theorem createBackend_ok_props {sep backend_id : String} {cfg : BackendConfig}
    {b : Backend} (h : createBackend sep backend_id cfg = .ok b) :
    b.id = backend_id ∧ b.config = cfg ∧ b.separator = sep ∧
      b.state = .disconnected ∧ b.tools = [] ∧ cfg.pfx = some b.pfx ∧
      b.sessionOpen = false := by
  unfold createBackend at h
  by_cases h1 : cfg.btype = "http"
  · rw [if_pos h1] at h
    rcases hp : cfg.pfx with _ | p <;> rcases hu : cfg.url with _ | u <;>
      rw [hp, hu] at h <;> simp at h <;> simp [← h, hp]
  · rw [if_neg h1] at h
    by_cases h2 : cfg.btype = "stdio"
    · rw [if_pos h2] at h
      rcases hp : cfg.pfx with _ | p <;> rcases hc : cfg.command with _ | c <;>
        rw [hp, hc] at h <;> simp at h <;> simp [← h, hp]
    · rw [if_neg h2] at h
      simp at h

/-- `remove_backend` preserves the strengthened invariant. -/
theorem strongInv_remove (s : RegState) (bid : String) (h : StrongInv s) :
    StrongInv (removeBackendF s bid).1 := by
  rcases halk : alookup s.backends bid with _ | b
  · simp only [removeBackendF, halk]
    exact h
  · by_cases hst : b.state = .connected
    · have heq : (removeBackendF s bid).1 =
          persist { s with backends := aerase s.backends bid,
                           toolMap := unindexBackend s.toolMap bid } := by
        simp only [removeBackendF, halk, if_pos hst]
        simp [aerase_ainsert]
      rw [heq]
      exact strongInv_persist (strongInv_erase bid h)
    · have heq : (removeBackendF s bid).1 =
          persist { s with backends := aerase s.backends bid,
                           toolMap := unindexBackend s.toolMap bid } := by
        simp only [removeBackendF, halk, if_neg hst]
      rw [heq]
      exact strongInv_persist (strongInv_erase bid h)

/-- `disable_backend` preserves the strengthened invariant. -/
theorem strongInv_disable (s : RegState) (bid : String) (h : StrongInv s) :
    StrongInv (disableBackendF s bid).1 := by
  rcases halk : alookup s.backends bid with _ | b
  · simp only [disableBackendF, halk]
    exact h
  · have hbid : b.id = bid := (h.2.2.1 (bid, b) (alookup_eq_some_mem halk))
    by_cases hst : b.state = .connected
    · have heq : (disableBackendF s bid).1 =
          persist { s with
            backends := ainsert s.backends bid
              { (backendDisconnect b).1 with
                config := { (backendDisconnect b).1.config with enabled := false } },
            toolMap := unindexBackend s.toolMap bid } := by
        simp only [disableBackendF, halk, if_pos hst]
        simp [ainsert_ainsert]
      rw [heq]
      refine strongInv_persist (strongInv_disable_shape h ?_ rfl)
      simpa [backendDisconnect] using hbid
    · have heq : (disableBackendF s bid).1 =
          persist { s with
            backends := ainsert s.backends bid
              { b with config := { b.config with enabled := false } },
            toolMap := unindexBackend s.toolMap bid } := by
        simp only [disableBackendF, halk, if_neg hst]
      rw [heq]
      exact strongInv_persist (strongInv_disable_shape h hbid rfl)

/-- `add_backend` preserves the strengthened invariant, provided the
namespaced names it may index do not collide with any registered
backend's tools. -/
theorem strongInv_addB (s : RegState) (bid : String) (cfg : BackendConfig)
    (connect : Bool) (co : ConnectOutcome) (lo : ListOutcome) (now : Nat)
    (h : StrongInv s)
    (hdisj : ∀ raws, lo = .ok raws → ∀ r ∈ raws, ∀ p ∈ s.backends, ∀ t ∈ p.2.tools,
        cfg.pfx.getD "" ++ sepOf s ++ r.name ≠ t.namespaced_name) :
    StrongInv (addBackendF s bid cfg connect co lo now).1 := by
  rcases halk : alookup s.backends bid with _ | bdup
  case some =>
    simp only [addBackendF, halk, Option.isSome_some, if_true]
    exact h
  by_cases hpfx : cfg.pfx.getD "" = ""
  · simp only [addBackendF, halk, Option.isSome_none, Bool.false_eq_true, if_false,
      if_pos hpfx]
    exact h
  rcases hf : s.backends.find? (fun p => p.2.pfx = cfg.pfx.getD "") with _ | pdup
  swap
  · simp only [addBackendF, halk, Option.isSome_none, Bool.false_eq_true, if_false,
      if_neg hpfx, hf]
    exact h
  rcases hcr : createBackend (sepOf s) bid cfg with e | b
  · simp only [addBackendF, halk, Option.isSome_none, Bool.false_eq_true, if_false,
      if_neg hpfx, hf, hcr]
    exact h
  obtain ⟨hbI, hbC, hbS, hbSt, hbT, hbP, hbSes⟩ := createBackend_ok_props hcr
  by_cases hce : (connect = true ∧ cfg.enabled = true)
  swap
  · have heq : (addBackendF s bid cfg connect co lo now).1 =
        persist { s with backends := ainsert s.backends bid b } := by
      simp [addBackendF, halk, hpfx, hf, hcr, hce]
    rw [heq]
    exact strongInv_persist (strongInv_register h halk hbI (by rw [hbSt]; simp))
  rcases hbc : backendConnect b co with ⟨b', exc, tA⟩
  have hb'id : b'.id = bid := by
    have := backendConnect_fst_id b co
    rw [hbc] at this
    exact this.trans hbI
  cases exc with
  | some m =>
    have hb'err : b'.state = .error := by
      cases co with
      | ok =>
        have := backendConnect_exc_ok b
        rw [hbc] at this
        simp at this
      | fail mm =>
        have := backendConnect_fail_state b mm
        rw [hbc] at this
        exact this
    have heq : (addBackendF s bid cfg connect co lo now).1 =
        persist { s with backends := ainsert s.backends bid b' } := by
      simp [addBackendF, halk, hpfx, hf, hcr, hce, hbc, ainsert_ainsert]
    rw [heq]
    exact strongInv_persist (strongInv_register h halk hb'id (by rw [hb'err]; simp))
  | none =>
    have hco : co = .ok := by
      cases co with
      | ok => rfl
      | fail mm =>
        have := backendConnect_exc_fail b mm
        rw [hbc] at this
        simp at this
    subst hco
    have hb'st : b'.state = .connected := by
      have := backendConnect_ok_state b
      rw [hbc] at this
      exact this
    have hb'cfg : b'.config = cfg := by
      have := backendConnect_fst_config b .ok
      rw [hbc] at this
      exact this.trans hbC
    have hb'tools : b'.tools = [] := by
      have := backendConnect_fst_tools b .ok
      rw [hbc] at this
      exact this.trans hbT
    have hb'pfx : b'.pfx = b.pfx := by
      have := backendConnect_fst_pfx b .ok
      rw [hbc] at this
      exact this
    have hb'sep : b'.separator = sepOf s := by
      have := backendConnect_fst_separator b .ok
      rw [hbc] at this
      exact this.trans hbS
    have hb'ses : b'.config.btype = "stdio" → b'.sessionOpen = true := by
      intro hty
      have := backendConnect_ok_session b (by rw [hbC, ← hb'cfg]; exact hty)
      rw [hbc] at this
      exact this
    rcases hbl : backendListTools b' now lo with ⟨b2, res, tB⟩
    have hb2id : b2.id = bid := by
      have := backendListTools_fst_id b' now lo
      rw [hbl] at this
      exact this.trans hb'id
    cases res with
    | error m =>
      have hb2err : b2.state = .error := by
        have := backendListTools_error_state hb'ses (by rw [hbl])
        rw [hbl] at this
        exact this
      have heq : (addBackendF s bid cfg connect ConnectOutcome.ok lo now).1 =
          persist { s with backends := ainsert s.backends bid b2 } := by
        simp [addBackendF, halk, hpfx, hf, hcr, hce, hbc, hbl, ainsert_ainsert]
      rw [heq]
      exact strongInv_persist (strongInv_register h halk hb2id (by rw [hb2err]; simp))
    | ok ts =>
      have hb2st : b2.state = .connected := by
        have := @backendListTools_fst_state_of_ok b' now lo ts (by rw [hbl])
        rw [hbl] at this
        exact this.trans hb'st
      have hb2cfg : b2.config = cfg := by
        have := backendListTools_fst_config b' now lo
        rw [hbl] at this
        exact this.trans hb'cfg
      have hb2en : b2.enabled = true := by
        show b2.config.enabled = true
        rw [hb2cfg]
        exact hce.2
      obtain ⟨hb2tools, htscases⟩ :=
        @backendListTools_ok_tools b' now lo ts (by rw [hbl])
      rw [hbl] at hb2tools
      have hb2tools' : b2.tools = ts := hb2tools
      have heq : (addBackendF s bid cfg connect ConnectOutcome.ok lo now).1 =
          persist { s with backends := ainsert s.backends bid b2,
                           toolMap := indexTools s.toolMap b2.id b2.tools } := by
        simp [addBackendF, halk, hpfx, hf, hcr, hce, hbc, hbl, ainsert_ainsert,
          hb2tools']
      rw [heq, hb2id]
      refine strongInv_persist (strongInv_add_indexed h halk hb2id hb2st hb2en ?_ ?_)
      · intro t₁ h₁ t₂ h₂ hk
        rw [hb2tools'] at h₁ h₂
        rcases htscases with hcache | ⟨raws, hlo, hmapf⟩
        · rw [hcache, hb'tools] at h₁
          cases h₁
        · rw [hmapf] at h₁ h₂
          obtain ⟨r₁, hr₁, hre₁⟩ := List.mem_map.mp h₁
          obtain ⟨r₂, hr₂, hre₂⟩ := List.mem_map.mp h₂
          rw [← hre₁, ← hre₂] at hk ⊢
          simp only [mkToolInfo] at hk ⊢
          rw [namespaceName_inj hk]
      · intro t ht p hp t' ht'
        rw [hb2tools'] at ht
        rcases htscases with hcache | ⟨raws, hlo, hmapf⟩
        · rw [hcache, hb'tools] at ht
          cases ht
        · rw [hmapf] at ht
          obtain ⟨r, hr, hre⟩ := List.mem_map.mp ht
          rw [← hre]
          simp only [mkToolInfo]
          have hnm : b'.namespaceName r.name
              = cfg.pfx.getD "" ++ sepOf s ++ r.name := by
            unfold Backend.namespaceName
            rw [hb'pfx, hb'sep, hbP]
            rfl
          rw [hnm]
          exact hdisj raws hlo r hr p hp t' ht'

/-- A fresh registry satisfies the strengthened invariant. -/
theorem strongInv_init (f : Option RegDoc) : StrongInv (initState f) := by
  refine ⟨?_, ?_, ?_, ?_, ?_⟩ <;> simp [initState, NodupK, akeys]

/-- One safe step preserves the strengthened invariant. -/
theorem strongInv_step_safe {s : RegState} {op : Op} (h : StrongInv s)
    (hs : SafeOp s op) : StrongInv (step s op).1 := by
  cases op with
  | load oracle now => exact hs.elim
  | add bid cfg connect co lo now => exact strongInv_addB s bid cfg connect co lo now h hs
  | remove bid => exact strongInv_remove s bid h
  | enable bid co lo now => exact hs.elim
  | disable bid => exact strongInv_disable s bid h
  | refresh optId oracle now => exact hs.elim
  | call name co lo callo now => exact hs.elim

/-- A safe run preserves the strengthened invariant. -/
theorem strongInv_run {s : RegState} {ops : List Op} (h : StrongInv s)
    (hs : SafeRun s ops) : StrongInv (run s ops) := by
  induction ops generalizing s with
  | nil => exact h
  | cons op rest ih => exact ih (strongInv_step_safe h hs.1) hs.2

/-! ## Concrete example inputs for counterexamples and witnesses -/


/-! ## Claim C1 — catalog integrity -/

/-- C1 counterexample: the invariant as claimed is false.  From the
empty registry, `add_backend "a"` (connect and enumeration succeed, one
tool `ping`) followed by `call_tool "a__ping"` whose forwarded HTTP call
raises `httpx.ConnectError` leaves backend `a` in state `ERROR` while
`a__ping` is still mapped to it, so the map holds an entry whose backend
is not `CONNECTED`. -/
theorem C1_counterexample : ¬ CatalogIntegrity (run (initState none) c1ops) := by
  decide

/-- C1 (amended): catalog integrity holds at every point reachable from
a fresh registry by sequences of `add_backend`, `remove_backend` and
`disable_backend` whose added backends bring namespaced tool names
disjoint from every registered backend's tools.  The other operations
break the invariant: a transport failure inside `call_tool`'s forwarding
(as in the counterexample), a failed reconnect inside `refresh` or
`enable_backend`, and a `load_from_config` over an existing registry
each leave a backend outside `CONNECTED` with its entries still in the
map. -/
theorem C1_catalog_integrity (f : Option RegDoc) (ops : List Op)
    (hs : SafeRun (initState f) ops) : CatalogIntegrity (run (initState f) ops) :=
  catalogIntegrity_of_strongInv (strongInv_run (strongInv_init f) hs)

/-- C1 witness: the amended theorem applied to a concrete safe run. -/
theorem C1_witness :
    SafeRun (initState none) c1okOps ∧
      CatalogIntegrity (run (initState none) c1okOps) := by
  have hs : SafeRun (initState none) c1okOps := by
    refine ⟨?_, trivial⟩
    intro raws hr r hrr p hp t ht
    simp [initState] at hp
  exact ⟨hs, C1_catalog_integrity none c1okOps hs⟩

/-! ## Claim C2 — add_backend validates before any side effect -/

/-- C2: `add_backend` fails with the backend table, tool map, in-memory
and persisted config all unchanged (and no backend contacted) whenever
the id is taken, the prefix is empty or absent, or the prefix is held by
a registered backend; for a nonempty duplicate prefix the message names
the holding backend. -/
theorem C2_add_backend_validation (s : RegState) (bid : String) (cfg : BackendConfig)
    (connect : Bool) (co : ConnectOutcome) (lo : ListOutcome) (now : Nat) :
    ((alookup s.backends bid).isSome = true →
       addBackendF s bid cfg connect co lo now =
         (s, .error (.valueError ("Backend '" ++ bid ++ "' already exists")), [])) ∧
    (alookup s.backends bid = none → cfg.pfx.getD "" = "" →
       addBackendF s bid cfg connect co lo now =
         (s, .error (.valueError "prefix is required"), [])) ∧
    (∀ A, alookup s.backends bid = none → cfg.pfx.getD "" ≠ "" →
       s.backends.find? (fun p => p.2.pfx = cfg.pfx.getD "") = some A →
       addBackendF s bid cfg connect co lo now =
         (s, .error (.valueError ("Prefix '" ++ cfg.pfx.getD "" ++
            "' already in use by backend '" ++ A.2.id ++ "'")), [])) := by
  refine ⟨?_, ?_, ?_⟩
  · intro hdup
    simp only [addBackendF, hdup, if_true]
  · intro hfresh hpe
    simp only [addBackendF, hfresh, Option.isSome_none, Bool.false_eq_true, if_false,
      if_pos hpe]
  · intro A hfresh hpe hfind
    simp only [addBackendF, hfresh, Option.isSome_none, Bool.false_eq_true, if_false,
      if_neg hpe, hfind]

/-- C2 witness: on the registry holding backend `a` (prefix `a`), a
duplicate id and a duplicate prefix are both rejected with the exact
messages and an unchanged state. -/
theorem C2_witness :
    (addBackendF (run (initState none) c1okOps) "a" (exHttpCfg "z") true .ok (.ok []) 0 =
      (run (initState none) c1okOps,
       .error (.valueError "Backend 'a' already exists"), [])) ∧
    (addBackendF (run (initState none) c1okOps) "b" (exHttpCfg "a") true .ok (.ok []) 0 =
      (run (initState none) c1okOps,
       .error (.valueError "Prefix 'a' already in use by backend 'a'"), [])) := by
  constructor
  · exact (C2_add_backend_validation (run (initState none) c1okOps) "a" (exHttpCfg "z")
      true .ok (.ok []) 0).1 (by decide)
  · rcases hfind : (run (initState none) c1okOps).backends.find?
        (fun p => p.2.pfx = (exHttpCfg "a").pfx.getD "") with _ | A
    · exact absurd hfind (by decide)
    · have hmem := List.mem_of_find?_eq_some hfind
      have hid : A.2.id = "a" := by
        have hall : ∀ p ∈ (run (initState none) c1okOps).backends, p.2.id = "a" := by
          decide
        exact hall A hmem
      have happ := (C2_add_backend_validation (run (initState none) c1okOps) "b"
        (exHttpCfg "a") true .ok (.ok []) 0).2.2 A (by decide) (by decide) hfind
      rw [happ, hid]
      rfl

/-! ## Claim C3 — connect on an already-CONNECTED backend -/


/-- C3 counterexample: `connect()` on a CONNECTED backend is not a no-op
success.  On the connected backend `a`, a `connect` whose handshake
fails raises, moves the state to `ERROR`, and performs upstream actions
— contradicting "returns without error and leaves the backend's state
unchanged (no re-handshake)". -/
theorem C3_counterexample :
    c3backend.state = .connected ∧
    (backendConnect c3backend (.fail "connection refused")).1.state = .error ∧
    (backendConnect c3backend (.fail "connection refused")).2.1
      = some "connection refused" ∧
    (backendConnect c3backend (.fail "connection refused")).2.2 ≠ [] := by
  decide

/-- C3 (amended): neither transport guards on state — `connect()` on a
CONNECTED backend re-runs the full sequence: it always contacts the
upstream again (for stdio, spawning a fresh subprocess and overwriting
the previous exit stack without closing it); on success it returns to
`CONNECTED` with `error_message` cleared, and on handshake failure it
raises and leaves the backend in `ERROR`. -/
theorem C3_connect_reconnects (b : Backend) (o : ConnectOutcome)
    (h : b.state = .connected) :
    (backendConnect b o).2.2 ≠ [] ∧
    (o = .ok → (backendConnect b o).1.state = .connected ∧
       (backendConnect b o).1.error_message = none ∧
       (backendConnect b o).2.1 = none) ∧
    (∀ m, o = .fail m → (backendConnect b o).1.state = .error ∧
       (backendConnect b o).1.error_message = some m ∧
       (backendConnect b o).2.1 = some m) := by
  refine ⟨?_, ?_, ?_⟩
  · cases o <;> by_cases hty : b.config.btype = "stdio" <;> simp [backendConnect, hty]
  · intro ho
    subst ho
    by_cases hty : b.config.btype = "stdio" <;> simp [backendConnect, hty]
  · intro m ho
    subst ho
    by_cases hty : b.config.btype = "stdio" <;> simp [backendConnect, hty]

/-- C3 witness: the amended theorem applied to the connected backend `a`. -/
theorem C3_witness :
    c3backend.state = .connected ∧ (backendConnect c3backend .ok).2.2 ≠ [] :=
  ⟨rfl, (C3_connect_reconnects c3backend .ok rfl).1⟩

/-! ## Claim C4 — call_tool error handling -/

/-- C4: an unresolved tool name makes `registry.call_tool` return the
in-band unknown-tool result without raising, changing any state, or
performing any backend action; a name resolving to a non-CONNECTED
backend triggers a lazy connect whose failure is returned in band as an
`isError` result naming the backend and the reason, the performed
actions being exactly the attempted connect's. -/
theorem C4_call_tool_errors (s : RegState) (name : String) (co : ConnectOutcome)
    (lo : ListOutcome) (callo : CallOutcome) (now : Nat) :
    (alookup s.toolMap name = none →
       callToolF s name co lo callo now =
         (s, .ok (.call (errText ("Unknown tool: " ++ name))), [])) ∧
    (∀ bid orig b m, alookup s.toolMap name = some (bid, orig) →
       alookup s.backends bid = some b → b.state ≠ .connected → co = .fail m →
       (callToolF s name co lo callo now).2.1 =
         .ok (.call (errText ("Failed to connect backend '" ++ b.id ++ "': " ++ m))) ∧
       (callToolF s name co lo callo now).2.2 = (backendConnect b co).2.2) := by
  constructor
  · intro hmap
    simp only [callToolF, hmap]
  · intro bid orig b m hmap hb hst hco
    subst hco
    rcases hbc : backendConnect b (.fail m) with ⟨b', exc, tA⟩
    have hexc : exc = some m := by
      have := backendConnect_exc_fail b m
      rw [hbc] at this
      exact this
    subst hexc
    constructor
    · simp only [callToolF, hmap, hb, if_pos hst, hbc]
    · simp only [callToolF, hmap, hb, if_pos hst, hbc]

/-- C4 witness: the unknown-tool case on the one-backend registry, and
the lazy-connect-failure case on the registry whose backend `a` is in
`ERROR` after the failed forwarded call. -/
theorem C4_witness :
    (callToolF (run (initState none) c1okOps) "z__nope" .ok (.ok []) (.ok {}) 5 =
      (run (initState none) c1okOps,
       .ok (.call (errText "Unknown tool: z__nope")), [])) ∧
    ((callToolF (run (initState none) c1ops) "a__ping" (.fail "refused")
        (.ok []) (.ok {}) 5).2.1 =
      .ok (.call (errText "Failed to connect backend 'a': refused"))) := by
  constructor
  · exact (C4_call_tool_errors (run (initState none) c1okOps) "z__nope" .ok (.ok [])
      (.ok {}) 5).1 (by decide)
  · rcases halk : alookup (run (initState none) c1ops).backends "a" with _ | b
    · exact absurd halk (by decide)
    · have hid : b.id = "a" := by
        have hall : ∀ p ∈ (run (initState none) c1ops).backends, p.2.id = "a" := by
          decide
        exact hall ("a", b) (alookup_eq_some_mem halk)
      have hst : b.state ≠ .connected := by
        have hall : ∀ p ∈ (run (initState none) c1ops).backends,
            p.2.state = .error := by decide
        rw [hall ("a", b) (alookup_eq_some_mem halk)]
        simp
      have happ := ((C4_call_tool_errors (run (initState none) c1ops) "a__ping"
        (.fail "refused") (.ok []) (.ok {}) 5).2 "a" "ping" b "refused"
        (by decide) halk hst rfl).1
      rw [happ, hid]
      rfl

/-! ## Claim C5 — load_from_config -/


theorem createBackend_of_creatable (sep backend_id : String) {cfg : BackendConfig}
    (h : CreatableCfg cfg) : ∃ b, createBackend sep backend_id cfg = .ok b := by
  rcases h with ⟨ht, hp, hu⟩ | ⟨ht, hp, hc⟩
  · rcases hpv : cfg.pfx with _ | p
    · exact absurd hpv hp
    · rcases huv : cfg.url with _ | u
      · exact absurd huv hu
      · exact ⟨{ id := backend_id, config := cfg, pfx := p, separator := sep,
                 ttl := cfg.tool_cache_ttl },
          by simp [createBackend, ht, hpv, huv]⟩
  · rcases hpv : cfg.pfx with _ | p
    · exact absurd hpv hp
    · rcases hcv : cfg.command with _ | c
      · exact absurd hcv hc
      · by_cases hh : cfg.btype = "http"
        · rw [hh] at ht
          simp at ht
        · exact ⟨{ id := backend_id, config := cfg, pfx := p, separator := sep,
                   ttl := cfg.tool_cache_ttl },
            by simp [createBackend, hh, ht, hpv, hcv]⟩

/-- Every branch of the loop body keeps the in-memory config and file,
appends exactly one report entry keyed by the definition's id, and
changes the backend table at most by one dict assignment at that id. -/
theorem loadOne_shape (oracle : String → ConnectOutcome × ListOutcome) (now : Nat)
    (acc : RegState × List (String × String) × List Action)
    (p : String × BackendConfig) :
    (loadOne oracle now acc p).1.memConfig = acc.1.memConfig ∧
    (loadOne oracle now acc p).1.file = acc.1.file ∧
    (∃ msg, (loadOne oracle now acc p).2.1 = acc.2.1 ++ [(p.1, msg)]) ∧
    ((loadOne oracle now acc p).1.backends = acc.1.backends ∨
       ∃ b, (loadOne oracle now acc p).1.backends = ainsert acc.1.backends p.1 b) := by
  by_cases hEn : p.2.enabled = false
  · simp [loadOne, hEn]
  · rcases hcr : createBackend (sepOf acc.1) p.1 p.2 with e | b
    · simp [loadOne, hEn, hcr]
    · by_cases hLz : lazyOf { acc.1 with backends := ainsert acc.1.backends p.1 b } = false
      · rcases hbc : backendConnect b (oracle p.1).1 with ⟨b', exc, tA⟩
        cases exc with
        | some m =>
          refine ⟨?_, ?_, ⟨"error: " ++ m, ?_⟩, Or.inr ⟨b', ?_⟩⟩ <;>
            simp [loadOne, hEn, hcr, hLz, hbc, ainsert_ainsert]
        | none =>
          rcases hbl : backendListTools b' now (oracle p.1).2 with ⟨b2, res, tB⟩
          cases res with
          | error m =>
            refine ⟨?_, ?_, ⟨"error: " ++ m, ?_⟩, Or.inr ⟨b2, ?_⟩⟩ <;>
              simp [loadOne, hEn, hcr, hLz, hbc, hbl, ainsert_ainsert]
          | ok ts =>
            refine ⟨?_, ?_,
              ⟨"connected (" ++ toString ts.length ++ " tools)", ?_⟩,
              Or.inr ⟨b2, ?_⟩⟩ <;>
              simp [loadOne, hEn, hcr, hLz, hbc, hbl, ainsert_ainsert]
      · refine ⟨?_, ?_, ⟨"registered (lazy)", ?_⟩, Or.inr ⟨b, ?_⟩⟩ <;>
          simp [loadOne, hEn, hcr, hLz]

/-- A disabled definition is only reported. -/
theorem loadOne_disabled (oracle : String → ConnectOutcome × ListOutcome) (now : Nat)
    (acc : RegState × List (String × String) × List Action)
    (p : String × BackendConfig) (h : p.2.enabled = false) :
    loadOne oracle now acc p = (acc.1, acc.2.1 ++ [(p.1, "disabled")], acc.2.2) := by
  simp [loadOne, h]

/-- An enabled, constructible definition ends the loop body registered
under its id. -/
theorem loadOne_registered (oracle : String → ConnectOutcome × ListOutcome) (now : Nat)
    (acc : RegState × List (String × String) × List Action)
    (p : String × BackendConfig) {b : Backend}
    (hEn : ¬ p.2.enabled = false)
    (hcr : createBackend (sepOf acc.1) p.1 p.2 = .ok b) :
    ∃ b', (loadOne oracle now acc p).1.backends = ainsert acc.1.backends p.1 b' := by
  by_cases hLz : lazyOf { acc.1 with backends := ainsert acc.1.backends p.1 b } = false
  · rcases hbc : backendConnect b (oracle p.1).1 with ⟨b', exc, tA⟩
    cases exc with
    | some m =>
      exact ⟨b', by simp [loadOne, hEn, hcr, hLz, hbc, ainsert_ainsert]⟩
    | none =>
      rcases hbl : backendListTools b' now (oracle p.1).2 with ⟨b2, res, tB⟩
      cases res with
      | error m =>
        exact ⟨b2, by simp [loadOne, hEn, hcr, hLz, hbc, hbl, ainsert_ainsert]⟩
      | ok ts =>
        exact ⟨b2, by simp [loadOne, hEn, hcr, hLz, hbc, hbl, ainsert_ainsert]⟩
  · exact ⟨b, by simp [loadOne, hEn, hcr, hLz]⟩

/-- The in-memory config is constant along the load loop. -/
theorem loadFold_memConfig (oracle : String → ConnectOutcome × ListOutcome) (now : Nat)
    (l : List (String × BackendConfig))
    (acc : RegState × List (String × String) × List Action) :
    (l.foldl (loadOne oracle now) acc).1.memConfig = acc.1.memConfig := by
  induction l generalizing acc with
  | nil => rfl
  | cons p rest ih =>
    rw [List.foldl_cons, ih]
    exact (loadOne_shape oracle now acc p).1

/-- The load loop reports exactly one entry per definition, in order. -/
theorem loadFold_report_keys (oracle : String → ConnectOutcome × ListOutcome) (now : Nat)
    (l : List (String × BackendConfig))
    (acc : RegState × List (String × String) × List Action) :
    ((l.foldl (loadOne oracle now) acc).2.1).map Prod.fst =
      acc.2.1.map Prod.fst ++ l.map Prod.fst := by
  induction l generalizing acc with
  | nil => simp
  | cons p rest ih =>
    rw [List.foldl_cons, ih]
    obtain ⟨msg, hrep⟩ := (loadOne_shape oracle now acc p).2.2.1
    rw [hrep]
    simp

/-- Ids not named by the remaining definitions keep their table binding. -/
theorem loadFold_lookup_fresh (oracle : String → ConnectOutcome × ListOutcome) (now : Nat)
    (l : List (String × BackendConfig))
    (acc : RegState × List (String × String) × List Action) (k : String)
    (h : k ∉ l.map Prod.fst) :
    alookup (l.foldl (loadOne oracle now) acc).1.backends k =
      alookup acc.1.backends k := by
  induction l generalizing acc with
  | nil => rfl
  | cons p rest ih =>
    simp only [List.map_cons, List.mem_cons] at h
    push_neg at h
    rw [List.foldl_cons, ih _ h.2]
    rcases (loadOne_shape oracle now acc p).2.2.2 with hsame | ⟨b, hins⟩
    · rw [hsame]
    · rw [hins]
      exact alookup_ainsert_ne b h.1

/-- A registered id stays registered across the rest of the load loop. -/
theorem loadFold_lookup_isSome (oracle : String → ConnectOutcome × ListOutcome) (now : Nat)
    (l : List (String × BackendConfig))
    (acc : RegState × List (String × String) × List Action) (k : String)
    (h : (alookup acc.1.backends k).isSome = true) :
    (alookup (l.foldl (loadOne oracle now) acc).1.backends k).isSome = true := by
  induction l generalizing acc with
  | nil => exact h
  | cons p rest ih =>
    rw [List.foldl_cons]
    refine ih _ ?_
    rcases (loadOne_shape oracle now acc p).2.2.2 with hsame | ⟨b, hins⟩
    · rw [hsame]; exact h
    · rw [hins]
      by_cases hk : p.1 = k
      · subst hk
        rw [alookup_ainsert_self]
        rfl
      · rw [alookup_ainsert_ne b (fun hh => hk hh.symm)]
        exact h

/-- When `lazy_connect` is false and both the handshake and the
enumeration succeed, the loop body registers the backend `CONNECTED`,
indexes its namespaced tools, and reports the tool count. -/
theorem loadOne_success (oracle : String → ConnectOutcome × ListOutcome) (now : Nat)
    (acc : RegState × List (String × String) × List Action)
    (p : String × BackendConfig) {b : Backend} {raws : List RawTool}
    (hEn : ¬ p.2.enabled = false)
    (hcr : createBackend (sepOf acc.1) p.1 p.2 = .ok b)
    (hLz : lazyOf acc.1 = false)
    (horacle : oracle p.1 = (.ok, .ok raws)) :
    ∃ b2, b2.id = p.1 ∧ b2.state = .connected ∧
      b2.tools = raws.map (mkToolInfo b2) ∧
      (loadOne oracle now acc p).1.backends = ainsert acc.1.backends p.1 b2 ∧
      (loadOne oracle now acc p).1.toolMap = indexTools acc.1.toolMap p.1 b2.tools ∧
      (loadOne oracle now acc p).2.1 = acc.2.1 ++
        [(p.1, "connected (" ++ toString b2.tools.length ++ " tools)")] := by
  obtain ⟨hbI, hbC, hbS, hbSt, hbT, hbP, hbSes⟩ := createBackend_ok_props hcr
  have hLz' : lazyOf { acc.1 with backends := ainsert acc.1.backends p.1 b } = false := hLz
  rcases hbc : backendConnect b ConnectOutcome.ok with ⟨b', exc, tA⟩
  have hexc : exc = none := by
    have := backendConnect_exc_ok b
    rw [hbc] at this
    exact this
  subst hexc
  have hb'id : b'.id = p.1 := by
    have := backendConnect_fst_id b .ok
    rw [hbc] at this
    exact this.trans hbI
  have hb'st : b'.state = .connected := by
    have := backendConnect_ok_state b
    rw [hbc] at this
    exact this
  have hb'tools : b'.tools = [] := by
    have := backendConnect_fst_tools b .ok
    rw [hbc] at this
    exact this.trans hbT
  have hb'cfg : b'.config = p.2 := by
    have := backendConnect_fst_config b .ok
    rw [hbc] at this
    exact this.trans hbC
  have hses : ¬ (b'.config.btype = "stdio" ∧ b'.sessionOpen = false) := by
    rintro ⟨h1, h2⟩
    have := backendConnect_ok_session b (by rw [hbC, ← hb'cfg]; exact h1)
    rw [hbc] at this
    simp only at this
    rw [this] at h2
    cases h2
  have hbl : backendListTools b' now (.ok raws) =
      ({ b' with tools := raws.map (mkToolInfo b'), tools_cache_time := now },
       .ok (raws.map (mkToolInfo b')), [.upstreamQuery b'.id]) := by
    unfold backendListTools
    rw [if_neg hses, if_neg (by simp [hb'tools])]
  refine ⟨{ b' with tools := raws.map (mkToolInfo b'), tools_cache_time := now },
    hb'id, hb'st, rfl, ?_, ?_, ?_⟩ <;>
    simp [loadOne, hEn, hcr, hLz', horacle, hbc, hbl, ainsert_ainsert, hb'id]


/-- C5 counterexample: `load_from_config` does not register disabled
definitions.  Loading a config whose only definition `d` is disabled
leaves the backend table empty (the definition is reported "disabled"
and never constructed), contradicting "every definition, enabled or
disabled, is afterwards registered in the backend table". -/
theorem C5_counterexample :
    c5file.backendsCfg.map Prod.fst = ["d"] ∧
    (loadFromConfigF (initState (some c5file)) (fun _ => (.ok, .ok [])) 0).1.backends
      = [] ∧
    (loadFromConfigF (initState (some c5file)) (fun _ => (.ok, .ok [])) 0).2.1
      = .ok (.table [("d", "disabled")]) :=
  ⟨rfl, rfl, rfl⟩

/-- C5 (amended): `load_from_config` constructs and registers a
connection for each *enabled* definition — a disabled definition is only
reported "disabled" and is not registered.  The loop reports one entry
per definition in order, so one backend's failure never aborts the rest;
and when `lazy_connect` is false, an enabled definition whose handshake
and enumeration succeed is registered `CONNECTED` with its namespaced
tools indexed and its tool count reported. -/
theorem C5_load_from_config (file : RegDoc)
    (oracle : String → ConnectOutcome × ListOutcome) (now : Nat)
    (hnd : NodupK file.backendsCfg) :
    (∃ reps, (loadFromConfigF (initState (some file)) oracle now).2.1 =
        .ok (.table reps) ∧
       reps.map Prod.fst = file.backendsCfg.map Prod.fst) ∧
    (∀ l1 bid cfg l2, file.backendsCfg = l1 ++ (bid, cfg) :: l2 →
       cfg.enabled = false →
       alookup (loadFromConfigF (initState (some file)) oracle now).1.backends bid
         = none) ∧
    (∀ l1 bid cfg l2, file.backendsCfg = l1 ++ (bid, cfg) :: l2 →
       cfg.enabled = true → CreatableCfg cfg →
       (alookup (loadFromConfigF (initState (some file)) oracle now).1.backends
         bid).isSome = true) ∧
    (∀ acc p b raws, ¬ p.2.enabled = false →
       createBackend (sepOf acc.1) p.1 p.2 = Except.ok b → lazyOf acc.1 = false →
       oracle p.1 = (.ok, .ok raws) →
       ∃ b2, b2.id = p.1 ∧ b2.state = .connected ∧
         b2.tools = raws.map (mkToolInfo b2) ∧
         (loadOne oracle now acc p).1.backends = ainsert acc.1.backends p.1 b2 ∧
         (loadOne oracle now acc p).1.toolMap =
           indexTools acc.1.toolMap p.1 b2.tools ∧
         (loadOne oracle now acc p).2.1 = acc.2.1 ++
           [(p.1, "connected (" ++ toString b2.tools.length ++ " tools)")]) := by
  refine ⟨?_, ?_, ?_, ?_⟩
  · exact ⟨_, rfl, loadFold_report_keys oracle now file.backendsCfg _⟩
  · intro l1 bid cfg l2 hsplit hdis
    have hnd' : (akeys file.backendsCfg).Nodup := hnd
    rw [hsplit] at hnd'
    simp only [akeys, List.map_append, List.map_cons] at hnd'
    obtain ⟨hn1, hn2, hdisj⟩ := List.nodup_append.mp hnd'
    have hbid1 : bid ∉ l1.map Prod.fst := fun hc =>
      hdisj hc (List.mem_cons_self _ _)
    have hbid2 : bid ∉ l2.map Prod.fst := (List.nodup_cons.mp hn2).1
    show alookup ((loadConfigReg (some file)).backendsCfg.foldl (loadOne oracle now)
      ({ initState (some file) with memConfig := loadConfigReg (some file) }, [], [])).1.backends
        bid = none
    have hcfg : (loadConfigReg (some file)).backendsCfg = l1 ++ (bid, cfg) :: l2 := hsplit
    rw [hcfg, List.foldl_append, List.foldl_cons,
      loadFold_lookup_fresh oracle now l2 _ bid hbid2,
      loadOne_disabled oracle now _ (bid, cfg) hdis,
      loadFold_lookup_fresh oracle now l1 _ bid hbid1]
    rfl
  · intro l1 bid cfg l2 hsplit hen hcreat
    show (alookup ((loadConfigReg (some file)).backendsCfg.foldl (loadOne oracle now)
      ({ initState (some file) with memConfig := loadConfigReg (some file) }, [], [])).1.backends
        bid).isSome = true
    have hcfg : (loadConfigReg (some file)).backendsCfg = l1 ++ (bid, cfg) :: l2 := hsplit
    rw [hcfg, List.foldl_append, List.foldl_cons]
    set acc := l1.foldl (loadOne oracle now)
      ({ initState (some file) with memConfig := loadConfigReg (some file) }, [], [])
    obtain ⟨b, hb⟩ := createBackend_of_creatable (sepOf acc.1) bid hcreat
    obtain ⟨b', hb'⟩ := loadOne_registered oracle now acc (bid, cfg)
      (by simp [hen]) hb
    refine loadFold_lookup_isSome oracle now l2 _ bid ?_
    rw [hb', alookup_ainsert_self]
    rfl
  · intro acc p b raws hEn hcr hLz horacle
    exact loadOne_success oracle now acc p hEn hcr hLz horacle

/-- C5 witness: loading a one-backend eager config registers backend `a`. -/
theorem C5_witness :
    (alookup (loadFromConfigF (initState (some c5file2))
      (fun _ => (.ok, .ok [exPing])) 0).1.backends "a").isSome = true :=
  (C5_load_from_config c5file2 (fun _ => (.ok, .ok [exPing])) 0 (by decide)).2.2.1
    [] "a" (exHttpCfg "a") [] rfl rfl (by decide)

/-! ## Claim C6 — add_backend persists a backend whose connect failed -/

/-- C6: an `add_backend` that passes validation but whose immediate
connect (or tool enumeration) fails still registers the backend — in
state `ERROR` carrying the failure message — persists its config to the
in-memory document and to disk, and reports the error. -/
theorem C6_add_failure_persists (s : RegState) (bid : String) (cfg : BackendConfig)
    (co : ConnectOutcome) (lo : ListOutcome) (now : Nat) (m : String) {b : Backend}
    (hfresh : alookup s.backends bid = none)
    (hpfx : cfg.pfx.getD "" ≠ "")
    (hf : s.backends.find? (fun p => p.2.pfx = cfg.pfx.getD "") = none)
    (hcr : createBackend (sepOf s) bid cfg = .ok b)
    (hen : cfg.enabled = true)
    (hfail : co = .fail m ∨ (co = .ok ∧ lo = .fail m)) :
    ∃ b2,
      alookup (addBackendF s bid cfg true co lo now).1.backends bid = some b2 ∧
      b2.state = .error ∧ b2.error_message = some m ∧ b2.config = cfg ∧
      alookup (addBackendF s bid cfg true co lo now).1.memConfig.backendsCfg bid
        = some cfg ∧
      (addBackendF s bid cfg true co lo now).1.file =
        some (addBackendF s bid cfg true co lo now).1.memConfig ∧
      (addBackendF s bid cfg true co lo now).2.1 =
        .ok (.add bid "error" none (some m)) := by
  obtain ⟨hbI, hbC, hbS, hbSt, hbT, hbP, hbSes⟩ := createBackend_ok_props hcr
  rcases hfail with hco | ⟨hco, hlo⟩
  · subst hco
    rcases hbc : backendConnect b (.fail m) with ⟨b', exc, tA⟩
    have hexc : exc = some m := by
      have := backendConnect_exc_fail b m
      rw [hbc] at this
      exact this
    subst hexc
    have heq : addBackendF s bid cfg true (.fail m) lo now =
        (persist { s with backends := ainsert s.backends bid b' },
         .ok (.add bid "error" none (some m)), tA) := by
      simp [addBackendF, hfresh, hpfx, hf, hcr, hen, hbc, ainsert_ainsert]
    have hst : b'.state = .error := by
      have := backendConnect_fail_state b m
      rw [hbc] at this
      exact this
    have herr : b'.error_message = some m := by
      have := backendConnect_fail_errmsg b m
      rw [hbc] at this
      exact this
    have hcfg : b'.config = cfg := by
      have := backendConnect_fst_config b (.fail m)
      rw [hbc] at this
      exact this.trans hbC
    refine ⟨b', ?_, hst, herr, hcfg, ?_, ?_, ?_⟩ <;>
      rw [heq]
    · exact alookup_ainsert_self _ _ _
    · show alookup ((ainsert s.backends bid b').map (fun p => (p.1, p.2.config))) bid
        = some cfg
      rw [alookup_map_snd, alookup_ainsert_self]
      simp [hcfg]
    · rfl
  · subst hco
    subst hlo
    rcases hbc : backendConnect b ConnectOutcome.ok with ⟨b', exc, tA⟩
    have hexc : exc = none := by
      have := backendConnect_exc_ok b
      rw [hbc] at this
      exact this
    subst hexc
    have hb'tools : b'.tools = [] := by
      have := backendConnect_fst_tools b .ok
      rw [hbc] at this
      exact this.trans hbT
    have hb'cfg : b'.config = cfg := by
      have := backendConnect_fst_config b .ok
      rw [hbc] at this
      exact this.trans hbC
    have hses : ¬ (b'.config.btype = "stdio" ∧ b'.sessionOpen = false) := by
      rintro ⟨h1, h2⟩
      have := backendConnect_ok_session b (by rw [hbC, ← hb'cfg]; exact h1)
      rw [hbc] at this
      simp only at this
      rw [this] at h2
      cases h2
    have hbl : backendListTools b' now (.fail m) =
        ({ b' with state := .error, error_message := some m },
         .error m, [.upstreamQuery b'.id]) := by
      unfold backendListTools
      rw [if_neg hses, if_neg (by simp [hb'tools])]
    have heq : addBackendF s bid cfg true ConnectOutcome.ok (.fail m) now =
        (persist { s with backends :=
                     (ainsert s.backends bid
                       ({ b' with state := .error, error_message := some m })) },
         .ok (.add bid "error" none (some m)), tA ++ [.upstreamQuery b'.id]) := by
      simp [addBackendF, hfresh, hpfx, hf, hcr, hen, hbc, hbl, ainsert_ainsert]
    refine ⟨{ b' with state := .error, error_message := some m },
      ?_, rfl, rfl, hb'cfg, ?_, ?_, ?_⟩ <;>
      rw [heq]
    · exact alookup_ainsert_self _ _ _
    · show alookup ((ainsert s.backends bid
          ({ b' with state := .error, error_message := some m })).map
            (fun p => (p.1, p.2.config))) bid = some cfg
      rw [alookup_map_snd, alookup_ainsert_self]
      simp [hb'cfg]
    · rfl

/-- C6 witness: adding backend `a` whose handshake is refused leaves it
registered in `ERROR` and persisted. -/
theorem C6_witness :
    ∃ b2,
      alookup (addBackendF (initState none) "a" (exHttpCfg "a") true
        (.fail "refused") (.ok []) 0).1.backends "a" = some b2 ∧
      b2.state = .error ∧ b2.error_message = some "refused" ∧
      b2.config = exHttpCfg "a" ∧
      alookup (addBackendF (initState none) "a" (exHttpCfg "a") true
        (.fail "refused") (.ok []) 0).1.memConfig.backendsCfg "a"
        = some (exHttpCfg "a") ∧
      (addBackendF (initState none) "a" (exHttpCfg "a") true
        (.fail "refused") (.ok []) 0).1.file =
        some (addBackendF (initState none) "a" (exHttpCfg "a") true
          (.fail "refused") (.ok []) 0).1.memConfig ∧
      (addBackendF (initState none) "a" (exHttpCfg "a") true
        (.fail "refused") (.ok []) 0).2.1 =
        .ok (.add "a" "error" none (some "refused")) := by
  obtain ⟨b, hb⟩ := @createBackend_of_creatable (sepOf (initState none)) "a"
    (exHttpCfg "a") (by decide)
  exact C6_add_failure_persists (initState none) "a" (exHttpCfg "a")
    (.fail "refused") (.ok []) 0 "refused" rfl (by decide) rfl hb rfl (Or.inl rfl)

/-! ## Claim C7 — the tool cache -/


/-- C7 counterexample: a fresh but *empty* cache is not returned — the
guard is `if self._tools and (now - ts) < ttl`, so on an empty cached
list `list_tools` queries the upstream even though the cache is fresh
(here `now - ts = 0 < 60`), replacing the cache. -/
theorem C7_counterexample :
    100 - c7backend.tools_cache_time < c7backend.ttl ∧
    c7backend.tools = [] ∧
    (backendListTools c7backend 100 (.ok [exPing])).2.2 ≠ [] ∧
    (backendListTools c7backend 100 (.ok [exPing])).1.tools ≠ c7backend.tools := by
  decide

/-- C7 (amended): when the cached list is *nonempty* and fresh
(`now - tools_indexed_at < ttl`), `list_tools` returns it with no
upstream query and no state change; when the cached list is empty or
stale, it queries the upstream, and on success replaces the cache with
the namespaced tools and sets the timestamp to `now`.  (For stdio the
session is assumed present, otherwise `list_tools` raises before
consulting the cache.) -/
theorem C7_list_tools_cache (b : Backend) (now : Nat) (up : ListOutcome)
    (hses : b.config.btype = "stdio" → b.sessionOpen = true) :
    (b.tools ≠ [] ∧ now - b.tools_cache_time < b.ttl →
       backendListTools b now up = (b, .ok b.tools, [])) ∧
    (b.tools = [] ∨ ¬ now - b.tools_cache_time < b.ttl →
       (backendListTools b now up).2.2 = [.upstreamQuery b.id] ∧
       ∀ raws, up = .ok raws →
         backendListTools b now up =
           ({ b with tools := raws.map (mkToolInfo b), tools_cache_time := now },
            .ok (raws.map (mkToolInfo b)), [.upstreamQuery b.id])) := by
  have hns : ¬ (b.config.btype = "stdio" ∧ b.sessionOpen = false) := by
    rintro ⟨h1, h2⟩
    rw [hses h1] at h2
    cases h2
  constructor
  · intro hfresh
    unfold backendListTools
    rw [if_neg hns, if_pos hfresh]
  · intro hmiss
    have hcond : ¬ (b.tools ≠ [] ∧ now - b.tools_cache_time < b.ttl) := by
      rcases hmiss with hm | hm
      · rintro ⟨h1, -⟩
        exact h1 hm
      · rintro ⟨-, h2⟩
        exact hm h2
    constructor
    · unfold backendListTools
      rw [if_neg hns, if_neg hcond]
      cases up <;> rfl
    · intro raws hup
      subst hup
      unfold backendListTools
      rw [if_neg hns, if_neg hcond]

/-- C7 witness: a nonempty fresh cache is served without an upstream
query, and an empty fresh cache triggers the query. -/
theorem C7_witness :
    (backendListTools c7cached 100 (.ok []) = (c7cached, .ok c7cached.tools, [])) ∧
    (backendListTools c7backend 100 (.ok [exPing])).2.2
      = [.upstreamQuery c7backend.id] := by
  constructor
  · exact (C7_list_tools_cache c7cached 100 (.ok []) (by decide)).1 (by decide)
  · exact ((C7_list_tools_cache c7backend 100 (.ok [exPing]) (by decide)).2
      (Or.inl rfl)).1

/-! ## Claim C8 — config round-trip -/

/-- In a dup-free dict, two entries with the same key coincide. -/
theorem nodupK_consistent {α : Type} {l : List (String × α)} (hnd : NodupK l) :
    ∀ p₁ ∈ l, ∀ p₂ ∈ l, Prod.fst p₁ = Prod.fst p₂ → Prod.snd p₁ = Prod.snd p₂ := by
  rintro ⟨k₁, v₁⟩ h₁ ⟨k₂, v₂⟩ h₂ hk
  simp only at hk ⊢
  subst hk
  have e₁ := mem_alookup hnd h₁
  have e₂ := mem_alookup hnd h₂
  exact Option.some.inj (e₁.symm.trans e₂)

/-- `dict(DEFAULT_SETTINGS)` then `update(given)` keeps every given
binding. -/
theorem mergeSettings_given {given : List (String × Json)} {k : String} {v : Json}
    (hnd : NodupK given) (h : alookup given k = some v) :
    alookup (mergeSettings given) k = some v :=
  alookup_foldl_ainsert_mem Prod.fst Prod.snd (nodupK_consistent hnd)
    (alookup_eq_some_mem h) defaultSettingsJ

/-- A settings key missing from the given document keeps its default. -/
theorem mergeSettings_default {given : List (String × Json)} {k : String}
    (h : alookup given k = none) :
    alookup (mergeSettings given) k = alookup defaultSettingsJ k :=
  alookup_foldl_ainsert_not_mem Prod.fst Prod.snd
    (fun p hp hc =>
      absurd (hc ▸ List.mem_map_of_mem Prod.fst hp) (not_mem_akeys_of_alookup_none h))
    defaultSettingsJ

/-- C8: `save_config` followed by `load_config` yields an equivalent
structure: every key other than `settings` and `backends` is unchanged,
a present `backends` value is unchanged and an absent one becomes the
empty object, `settings` becomes the defaults updated by the document's
own settings (given keys kept, missing keys filled from the defaults);
an absent file loads as empty backends plus default settings. -/
theorem C8_config_round_trip (kvs given : List (String × Json))
    (hgiven : (objGet kvs "settings" = none ∧ given = []) ∨
              objGet kvs "settings" = some (.obj given))
    (hnd : NodupK given) :
    (∃ kvs2, load_config (save_config (.obj kvs)) = .obj kvs2 ∧
       (∀ k, k ≠ "settings" → k ≠ "backends" → objGet kvs2 k = objGet kvs k) ∧
       (∀ bv, objGet kvs "backends" = some bv → objGet kvs2 "backends" = some bv) ∧
       (objGet kvs "backends" = none → objGet kvs2 "backends" = some (.obj [])) ∧
       objGet kvs2 "settings" = some (.obj (mergeSettings given)) ∧
       (∀ k v, objGet given k = some v → objGet (mergeSettings given) k = some v) ∧
       (∀ k, objGet given k = none →
          objGet (mergeSettings given) k = objGet defaultSettingsJ k)) ∧
    load_config none =
      .obj [("backends", .obj []), ("settings", .obj defaultSettingsJ)] := by
  refine ⟨?_, rfl⟩
  have hb1 : objGet (ainsert kvs "settings" (.obj (mergeSettings given))) "backends"
      = objGet kvs "backends" :=
    alookup_ainsert_ne _ (by decide)
  have hload : load_config (save_config (.obj kvs)) =
      .obj (if (objGet (ainsert kvs "settings" (.obj (mergeSettings given)))
                 "backends").isSome
            then ainsert kvs "settings" (.obj (mergeSettings given))
            else ainsert (ainsert kvs "settings" (.obj (mergeSettings given)))
                   "backends" (.obj [])) := by
    rcases hgiven with ⟨h1, h2⟩ | h1
    · subst h2
      simp only [save_config, load_config]
      rw [h1]
    · simp only [save_config, load_config]
      rw [h1]
  by_cases hback : (objGet kvs "backends").isSome = true
  · have hif : (objGet (ainsert kvs "settings" (.obj (mergeSettings given)))
        "backends").isSome = true := by
      rw [hb1]
      exact hback
    rw [if_pos hif] at hload
    refine ⟨_, hload, ?_, ?_, ?_, alookup_ainsert_self _ _ _,
      fun k v h => mergeSettings_given hnd h,
      fun k h => mergeSettings_default h⟩
    · intro k hks hkb
      exact alookup_ainsert_ne _ hks
    · intro bv hbv
      rw [hb1, hbv]
    · intro hnone
      rw [hnone] at hback
      cases hback
  · have hif : ¬ (objGet (ainsert kvs "settings" (.obj (mergeSettings given)))
        "backends").isSome = true := by
      rw [hb1]
      exact hback
    rw [if_neg hif] at hload
    refine ⟨_, hload, ?_, ?_, ?_, ?_,
      fun k v h => mergeSettings_given hnd h,
      fun k h => mergeSettings_default h⟩
    · intro k hks hkb
      exact (alookup_ainsert_ne _ hkb).trans (alookup_ainsert_ne _ hks)
    · intro bv hbv
      rw [hbv] at hback
      simp at hback
    · intro hnone
      exact alookup_ainsert_self _ _ _
    · exact (alookup_ainsert_ne _ (by decide)).trans (alookup_ainsert_self _ _ _)


/-- C8 witness: the round-trip theorem applied to a concrete document. -/
theorem C8_witness :
    ∃ kvs2, load_config (save_config (.obj c8kvs)) = .obj kvs2 ∧
      objGet kvs2 "extra" = some (.str "x") ∧
      objGet kvs2 "settings" = some (.obj defaultSettingsJ) := by
  obtain ⟨⟨kvs2, hk, hunk, hbp, hbn, hset, -, -⟩, -⟩ :=
    C8_config_round_trip c8kvs [] (Or.inl ⟨rfl, rfl⟩) (by decide)
  refine ⟨kvs2, hk, ?_, hset⟩
  rw [hunk "extra" (by decide) (by decide)]
  rfl

/-! ## Claim C9 — remove/disable skip disconnect unless CONNECTED -/


/-- C9: `remove_backend` and `disable_backend` call `disconnect()` only
on a `CONNECTED` backend; in any other state no disconnect action is
performed, and `disable_backend` keeps the backend's session/exit stack
flag untouched — while a failing stdio `list_tools` (session present)
does set `ERROR` without releasing the session. -/
theorem C9_skip_disconnect (s : RegState) (bid : String) (b : Backend)
    (halk : alookup s.backends bid = some b) :
    (b.state = .connected → (removeBackendF s bid).2.2 = [.disconnectCall b.id]) ∧
    (b.state ≠ .connected → (removeBackendF s bid).2.2 = []) ∧
    (b.state = .connected → (disableBackendF s bid).2.2 = [.disconnectCall b.id]) ∧
    (b.state ≠ .connected →
       (disableBackendF s bid).2.2 = [] ∧
       alookup (disableBackendF s bid).1.backends bid =
         some { b with config := { b.config with enabled := false } }) ∧
    (∀ now m lo, b.config.btype = "stdio" → b.sessionOpen = true →
       (backendListTools b now lo).2.1 = .error m →
       (backendListTools b now lo).1.sessionOpen = true ∧
       (backendListTools b now lo).1.state = .error) := by
  refine ⟨?_, ?_, ?_, ?_, ?_⟩
  · intro hst
    simp [removeBackendF, halk, hst, backendDisconnect]
  · intro hst
    simp [removeBackendF, halk, hst]
  · intro hst
    simp [disableBackendF, halk, hst, backendDisconnect]
  · intro hst
    constructor
    · simp [disableBackendF, halk, hst]
    · have heq : (disableBackendF s bid).1.backends =
          ainsert s.backends bid
            ({ b with config := { b.config with enabled := false } }) := by
        simp [disableBackendF, halk, hst, persist]
      rw [heq, alookup_ainsert_self]
  · intro now m lo hty hses herr
    refine ⟨?_, backendListTools_error_state (fun _ => hses) herr⟩
    rw [backendListTools_fst_session, hses]

/-- C9 witness: removing and disabling the errored stdio backend perform
no disconnect, and disabling keeps its session open. -/
theorem C9_witness :
    (removeBackendF c9state "sd").2.2 = [] ∧
    (disableBackendF c9state "sd").2.2 = [] ∧
    (alookup (disableBackendF c9state "sd").1.backends "sd").map Backend.sessionOpen
      = some true := by
  have h := C9_skip_disconnect c9state "sd" c9backend rfl
  refine ⟨h.2.1 (by decide), (h.2.2.2.1 (by decide)).1, ?_⟩
  rw [(h.2.2.2.1 (by decide)).2]
  rfl

/-! ## Claim C10 — refresh with a missing id raises KeyError -/

/-- C10 counterexample: the claim fails at the empty-string id.  `""`
is not a key of the table, yet `refresh("")` raises no `KeyError`: the
target-list expression tests `if backend_id` — Python truthiness, under
which `""` is falsy — so the call takes the all-backends branch,
refreshes every registered backend (here mutating backend `sd`'s
`error_message` through a failing reconnect) and returns a results
table. -/
theorem C10_counterexample :
    alookup c9state.backends "" = none ∧
    (refreshF c9state (some "") (fun _ => (.fail "down", .ok [])) 0).2.1
      = .ok (.table [("sd", "error: down")]) ∧
    (refreshF c9state (some "") (fun _ => (.fail "down", .ok [])) 0).1
      ≠ c9state := by
  refine ⟨rfl, rfl, ?_⟩
  decide

/-- C10 (amended): for every *nonempty* id not in the backend table,
`refresh(id)` raises `KeyError` from the dict subscript that builds the
target list — never the dedicated `ValueError` "Backend '<id>' not
found" (that check sits after the subscript and is unreachable for such
an id) — and leaves the whole registry state unchanged.  The empty
string, being falsy in Python's `if backend_id` test, instead selects
the refresh-all branch, exactly as `refresh(None)` does. -/
theorem C10_refresh_missing_id (s : RegState) (bid : String)
    (oracle : String → ConnectOutcome × ListOutcome) (now : Nat)
    (hne : bid ≠ "") (h : alookup s.backends bid = none) :
    refreshF s (some bid) oracle now = (s, .error (.keyError bid), []) ∧
    (∀ m, (refreshF s (some bid) oracle now).2.1 ≠ .error (.valueError m)) ∧
    refreshF s (some "") oracle now = refreshAll s oracle now := by
  have heq : refreshF s (some bid) oracle now = (s, .error (.keyError bid), []) := by
    simp [refreshF, hne, h]
  refine ⟨heq, ?_, by simp [refreshF]⟩
  intro m
  rw [heq]
  simp

/-- C10 witness: refreshing the unknown nonempty id `zz` raises
`KeyError` and changes nothing. -/
theorem C10_witness :
    refreshF c9state (some "zz") (fun _ => (.ok, .ok [])) 0 =
      (c9state, .error (.keyError "zz"), []) :=
  (C10_refresh_missing_id c9state "zz" (fun _ => (.ok, .ok [])) 0 (by decide)
    (by decide)).1

end Mcp0ne
